import Mathlib

/-!
Verification of the nitrus networking toolkit against its specification.

The definitions below are a shallow embedding of the C++ sources:
* the generic hierarchical state machine (src/include/state/StateMachine.hpp),
* the TCP client state-machine configuration and destructor
  (src/include/net/TcpClient.hpp),
* the HTTP client request builder and response parser
  (src/include/http/HttpClient.hpp),
* the progressive XML tokenizer and the XML DOM (src/include/xml/Xml.hpp),
* the TimeSpan duration type (src/include/TimeSpan.hpp).

Machine integers are modelled as Nat/Int, std::string as String (byte = Char,
all inputs here are ASCII), C++ doubles as exact rationals, and delegate
callbacks as the values they produce.  Entry handlers of the concrete protocol
machines fire at most one trigger in tail position, so the re-entrant drive
loop of the source is modelled as a fuel-bounded loop.
-/

set_option linter.unusedVariables false

/-- Decidable equality of Except values with decidable components. -/
instance {ε α : Type} [DecidableEq ε] [DecidableEq α] : DecidableEq (Except ε α) :=
  fun a b =>
    match a, b with
    | .error e, .error f =>
      if h : e = f then .isTrue (by rw [h]) else
        .isFalse (fun hc => by cases hc; exact h rfl)
    | .ok x, .ok y =>
      if h : x = y then .isTrue (by rw [h]) else
        .isFalse (fun hc => by cases hc; exact h rfl)
    | .error _, .ok _ => .isFalse (fun hc => by cases hc)
    | .ok _, .error _ => .isFalse (fun hc => by cases hc)

namespace Nitrus

/-! ## Generic hierarchical state machine (StateMachine.hpp) -/

/-- Exceptions of StateMachine: UndefinedTriggerException, and
MultipleTriggerException (the ambiguous-transition error). -/
inductive SMError where
  | undefinedTrigger
  | multipleTrigger
deriving DecidableEq

/-- TriggerConfiguration: a destination plus the value the guard predicate
(the Delegate of bool) yields at fire time. -/
structure TriggerConfiguration (σ : Type) where
  destination : σ
  predicate : Bool
deriving DecidableEq

/-- StateConfiguration: super-states (std::set, duplicates removed; iteration
order does not affect any observable result of Transition) and the permitted
transitions (std::multimap; only the relative order of entries with the same
trigger is observable, which insertion order preserves).  The entry and exit
handlers are opaque effects; Fire reports their invocation in its trace. -/
structure StateConfiguration (σ τ : Type) where
  superStates : List σ
  triggerConfigurations : List (τ × TriggerConfiguration σ)
deriving DecidableEq

/-- Default-constructed StateConfiguration. -/
def StateConfiguration.empty {σ τ : Type} : StateConfiguration σ τ := ⟨[], []⟩

/-- StateConfiguration::Permit(trigger, destination, predicate): inserts one
more transition for the trigger. -/
def StateConfiguration.permit {σ τ : Type} (cfg : StateConfiguration σ τ)
    (t : τ) (d : σ) (g : Bool) : StateConfiguration σ τ :=
  { cfg with triggerConfigurations := cfg.triggerConfigurations ++ [(t, ⟨d, g⟩)] }

/-- StateConfiguration::SubstateOf(state): inserts a super-state into the
std::set (inserting an already present state is a no-op). -/
def StateConfiguration.substateOf {σ τ : Type} [DecidableEq σ]
    (cfg : StateConfiguration σ τ) (p : σ) : StateConfiguration σ τ :=
  if p ∈ cfg.superStates then cfg
  else { cfg with superStates := cfg.superStates ++ [p] }

/-- State machine: the configuration map (std::map as an association list) and
the current state. -/
structure StateMachineM (σ τ : Type) where
  stateConfigurations : List (σ × StateConfiguration σ τ)
  state : σ

/-- Lookup in the configuration map, as std::map::find. -/
def findConfig {σ τ : Type} [DecidableEq σ]
    (cfgs : List (σ × StateConfiguration σ τ)) (s : σ) :
    Option (StateConfiguration σ τ) :=
  match cfgs.find? (fun p => decide (p.1 = s)) with
  | some p => some p.2
  | none => none

/-- StateMachine::Configure as used through the lookup delegate inside
Transition: a state without a configuration behaves as a fresh empty one. -/
def lookupConfig {σ τ : Type} [DecidableEq σ]
    (cfgs : List (σ × StateConfiguration σ τ)) (s : σ) :
    StateConfiguration σ τ :=
  (findConfig cfgs s).getD StateConfiguration.empty

/-- First loop of StateConfiguration::Transition: scan the equal range of the
trigger, keep the unique satisfied transition, throw MultipleTriggerException
on a second satisfied one.  The accumulator is the loop variable result. -/
def resolveOwn {σ τ : Type} [DecidableEq τ] :
    List (τ × TriggerConfiguration σ) → τ → Option σ → Except SMError (Option σ)
  | [], _, acc => .ok acc
  | (t0, tc) :: rest, t, acc =>
    if t0 = t ∧ tc.predicate = true then
      match acc with
      | some _ => .error .multipleTrigger
      | none => resolveOwn rest t (some tc.destination)
    else
      resolveOwn rest t acc

/-- Second loop of StateConfiguration::Transition: query each super-state
through the recursive Transition (passed as an argument); a satisfied result
from a second super-state throws MultipleTriggerException, and exceptions
from the recursive query propagate.  The accumulator is the loop variable
result. -/
def transitionParents {σ : Type} (trans : σ → Except SMError (Option σ)) :
    List σ → Option σ → Except SMError (Option σ)
  | [], acc => .ok acc
  | p :: rest, acc =>
    match trans p with
    | .error e => .error e
    | .ok none => transitionParents trans rest acc
    | .ok (some d) =>
      match acc with
      | some _ => .error .multipleTrigger
      | none => transitionParents trans rest (some d)

/-- One level of StateConfiguration::Transition: resolve among the
transitions declared on this configuration; if none is satisfied, query each
super-state through the recursive Transition passed as an argument. -/
def transitionStep {σ τ : Type} [DecidableEq τ]
    (recur : σ → Except SMError (Option σ)) (cfg : StateConfiguration σ τ)
    (t : τ) : Except SMError (Option σ) :=
  match resolveOwn cfg.triggerConfigurations t none with
  | .error e => .error e
  | .ok (some d) => .ok (some d)
  | .ok none => transitionParents recur cfg.superStates none

/-- StateConfiguration::Transition.  The fuel bounds the recursion through
super-states (the C++ recursion does not terminate on cyclic configurations;
at exhausted fuel a super-state reports no transition). -/
def transition {σ τ : Type} [DecidableEq σ] [DecidableEq τ] :
    Nat → List (σ × StateConfiguration σ τ) → StateConfiguration σ τ → τ →
      Except SMError (Option σ)
  | 0, _, cfg, t => transitionStep (fun _ => .ok none) cfg t
  | fuel + 1, cfgs, cfg, t =>
    transitionStep (fun p => transition fuel cfgs (lookupConfig cfgs p) t) cfg t

/-- StateMachine::CanFire: a current state with no configuration cannot fire;
otherwise ask its configuration for a transition. -/
def canFire {σ τ : Type} [DecidableEq σ] [DecidableEq τ] (fuel : Nat)
    (m : StateMachineM σ τ) (t : τ) : Except SMError (Option σ) :=
  match findConfig m.stateConfigurations m.state with
  | none => .ok none
  | some cfg => transition fuel m.stateConfigurations cfg t

/-- One step of the trace Fire produces: the exit handler of a state is
signalled, the state mutator runs, the entry handler of a state is
signalled. -/
inductive HandlerCall (σ : Type) where
  | exited (s : σ)
  | stateSet (s : σ)
  | entered (s : σ)
deriving DecidableEq

/-- StateMachine::Fire.  On success it signals OnStateExited of the source,
runs the state mutator, and signals OnStateEntered of the destination, in that
order (the returned trace).  On failure the exception propagates before the
mutator runs, so the returned machine is the unchanged input machine. -/
def fire {σ τ : Type} [DecidableEq σ] [DecidableEq τ] (fuel : Nat)
    (m : StateMachineM σ τ) (t : τ) :
    StateMachineM σ τ × Except SMError (List (HandlerCall σ)) :=
  match canFire fuel m t with
  | .error e => (m, .error e)
  | .ok none => (m, .error .undefinedTrigger)
  | .ok (some d) =>
    ({ m with state := d }, .ok [.exited m.state, .stateSet d, .entered d])

/-- Destinations of the transitions declared on a configuration for a trigger
whose guards evaluate true (the satisfied candidates of the first loop of
Transition). -/
def satisfiedDests {σ τ : Type} [DecidableEq τ]
    (entries : List (τ × TriggerConfiguration σ)) (t : τ) : List σ :=
  (entries.filter (fun e => decide (e.1 = t) && e.2.predicate)).map
    (fun e => e.2.destination)

/-- Satisfied same-state candidates of a state configuration. -/
def satisfiedOwn {σ τ : Type} [DecidableEq τ] (cfg : StateConfiguration σ τ)
    (t : τ) : List σ :=
  satisfiedDests cfg.triggerConfigurations t

/-- Destinations provided by the super-states in order: a super-state provides
a destination when its recursive Transition query succeeds with one. -/
def providedByParents {σ τ : Type} [DecidableEq σ] [DecidableEq τ] (fuel : Nat)
    (cfgs : List (σ × StateConfiguration σ τ)) (parents : List σ) (t : τ) :
    List σ :=
  parents.filterMap (fun p =>
    match transition fuel cfgs (lookupConfig cfgs p) t with
    | .ok (some d) => some d
    | _ => none)

/-- Outcome of a scan that tolerates at most one candidate: none, the unique
one, or the MultipleTriggerException. -/
def singleOf {σ : Type} : List σ → Except SMError (Option σ)
  | [] => .ok none
  | [d] => .ok (some d)
  | _ :: _ :: _ => .error .multipleTrigger

/-- No transition for the trigger is satisfied anywhere: the state (taken as
empty when unconfigured) has no satisfied same-state transition and,
recursively within the fuel bound, none of its super-states has one. -/
def noSatisfied {σ τ : Type} [DecidableEq σ] [DecidableEq τ]
    (cfgs : List (σ × StateConfiguration σ τ)) (t : τ) :
    Nat → σ → Prop
  | 0, s => satisfiedOwn (lookupConfig cfgs s) t = []
  | fuel + 1, s =>
    satisfiedOwn (lookupConfig cfgs s) t = [] ∧
      ∀ p ∈ (lookupConfig cfgs s).superStates, noSatisfied cfgs t fuel p

/-! ## TCP client (TcpClient.hpp) -/

/-- States of the TcpClient state machine. -/
inductive TcpState where
  | idle
  | connecting
  | connected
  | sending
  | disconnected
deriving DecidableEq

/-- Triggers of the TcpClient state machine. -/
inductive TcpTrigger where
  | connect
  | connected
  | send
  | timeout
  | disconnected
deriving DecidableEq

/-- Externally visible events of a TcpClient. -/
inductive TcpEvent where
  | clientConnected
  | clientDisconnected
deriving DecidableEq

/-- The state machine configuration built in the TcpClient constructor.
Every Permit uses the default always-true predicate. -/
def tcpConfigs : List (TcpState × StateConfiguration TcpState TcpTrigger) :=
  [ (.idle,
      ((StateConfiguration.empty.permit .connected .connected true).permit
        .connect .connecting true)),
    (.connecting,
      (((StateConfiguration.empty.permit .connected .connected true).permit
        .disconnected .disconnected true).permit .timeout .disconnected true)),
    (.connected,
      ((StateConfiguration.empty.permit .send .sending true).permit
        .disconnected .disconnected true)),
    (.sending, (StateConfiguration.empty.substateOf .connected)),
    (.disconnected, StateConfiguration.empty) ]

/-- Events emitted directly by the entry handler of each TcpClient state:
Connected_OnEntry raises ClientConnected, Disconnected_OnEntry raises
ClientDisconnected; Connecting_OnEntry and Sending_OnEntry only poll,
send bytes or fire further triggers, and raise no event. -/
def tcpEntryEvents : TcpState → List TcpEvent
  | .connected => [.clientConnected]
  | .disconnected => [.clientDisconnected]
  | _ => []

/-- Events raised along a Fire trace. -/
def tcpTraceEvents (trace : List (HandlerCall TcpState)) : List TcpEvent :=
  trace.foldr
    (fun c acc =>
      (match c with
       | .entered s => tcpEntryEvents s
       | _ => []) ++ acc)
    []

/-- TcpClient::~TcpClient: when the machine is in Connected or Connecting,
fire the Disconnected trigger (whose destination entry handler raises the
ClientDisconnected event); otherwise do nothing.  Returns the events raised
during destruction. -/
def tcpDestructorEvents (s : TcpState) : List TcpEvent :=
  if s = .connected ∨ s = .connecting then
    match (fire 2 ⟨tcpConfigs, s⟩ .disconnected).2 with
    | .ok trace => tcpTraceEvents trace
    | .error _ => []
  else []

/-! ## String helpers (String.hpp and std::string operations)

C++ std::string::find, find_first_of, find_first_not_of, substr and erase are
modelled over String (inputs are ASCII, one Char per byte).  npos results are
Option.none; erase(0, n) is String.drop which, like erase, clamps at the
size. -/

/-- Whether the pattern occurs at the head of the character list. -/
def matchesAt : List Char → List Char → Bool
  | [], _ => true
  | _ :: _, [] => false
  | p :: ps, c :: cs => p = c && matchesAt ps cs

/-- Index of the first occurrence of the pattern in the list. -/
def findSubAux (pat : List Char) : List Char → Option Nat
  | [] => if pat = [] then some 0 else none
  | c :: rest =>
    if matchesAt pat (c :: rest) then some 0
    else (findSubAux pat rest).map (· + 1)

/-- std::string::find(pat, start): search from the start offset; an offset
past the end yields npos. -/
def strFindFrom (s pat : String) (start : Nat) : Option Nat :=
  if s.length < start then none
  else (findSubAux pat.data (s.data.drop start)).map (· + start)

/-- std::string::find_first_of over a character set. -/
def findFirstOf (s : String) (set : List Char) : Option Nat :=
  (s.data.findIdx? (fun c => set.contains c))

/-- std::string::find_first_not_of over a character set. -/
def findFirstNotOf (s : String) (set : List Char) : Option Nat :=
  (s.data.findIdx? (fun c => !set.contains c))

/-- String::ToLowerCase (::tolower per character; ASCII). -/
def strLower (s : String) : String :=
  String.mk (s.data.map Char.toLower)

/-- Whitespace skipped by istream formatted extraction (isspace in the C
locale). -/
def isStreamSpace (c : Char) : Bool :=
  c = ' ' || c = '\t' || c = '\n' || c = '\r' ||
    c = Char.ofNat 11 || c = Char.ofNat 12

/-- Whether the character is a hexadecimal digit. -/
def isHexDigitC (c : Char) : Bool :=
  (48 ≤ c.toNat && c.toNat ≤ 57) || (97 ≤ c.toNat && c.toNat ≤ 102) ||
    (65 ≤ c.toNat && c.toNat ≤ 70)

/-- Value of a hexadecimal digit. -/
def hexDigitVal (c : Char) : Nat :=
  if c.toNat ≤ 57 then c.toNat - 48
  else if c.toNat ≤ 70 then c.toNat - 55
  else c.toNat - 87

/-- Whether the character is a decimal digit. -/
def isDecDigitC (c : Char) : Bool :=
  48 ≤ c.toNat && c.toNat ≤ 57

/-- String::Convert of size_t with the std::hex modifier: skip leading
whitespace, read a maximal run of hexadecimal digits (none yields a failed
extraction, which Convert turns into InvalidFormatException); trailing
characters are left unread.  The 0x prefix and sign wrap-around of num_get
are not exercised by any input in this development. -/
def parseHexNat (s : String) : Option Nat :=
  let digits := (s.data.dropWhile isStreamSpace).takeWhile isHexDigitC
  if digits = [] then none
  else some (digits.foldl (fun a c => a * 16 + hexDigitVal c) 0)

/-- String::Convert of size_t with the default std::dec modifier. -/
def parseDecNat (s : String) : Option Nat :=
  let digits := (s.data.dropWhile isStreamSpace).takeWhile isDecDigitC
  if digits = [] then none
  else some (digits.foldl (fun a c => a * 10 + (c.toNat - 48)) 0)

/-- String::Convert of int with the default std::dec modifier: optional sign
then a maximal digit run. -/
def parseDecInt (s : String) : Option Int :=
  let l := s.data.dropWhile isStreamSpace
  let signAndRest : Int × List Char :=
    match l with
    | '-' :: rest => (-1, rest)
    | '+' :: rest => (1, rest)
    | _ => (1, l)
  let digits := signAndRest.2.takeWhile isDecDigitC
  if digits = [] then none
  else some (signAndRest.1 * (digits.foldl (fun a c => a * 10 + (c.toNat - 48)) 0 : Nat))

/-- Lowercase hexadecimal digit character. -/
def hexDigitChar (n : Nat) : Char :=
  if n < 10 then Char.ofNat (48 + n) else Char.ofNat (87 + n)

/-- Digits of a number in base 16, most significant first. -/
def natToHexAux : Nat → Nat → List Char
  | 0, _ => []
  | fuel + 1, n =>
    if n = 0 then [] else natToHexAux fuel (n / 16) ++ [hexDigitChar (n % 16)]

/-- String::Format("%x", n): lowercase hexadecimal with no padding. -/
def natToHex (n : Nat) : String :=
  if n = 0 then "0" else String.mk (natToHexAux n n)

/-! ## HTTP client (HttpClient.hpp) -/

/-- States of the HttpClient state machine. -/
inductive HCState where
  | waitForConnection
  | connected
  | requestActionLine
  | requestHeaderLine
  | requestLastHeader
  | requestChunk
  | responseActionLine
  | responseHeaderLine
  | responseHeaderLineAndTransferEncodingChunked
  | responseHeaderLineAndContentLength
  | responseHeaderLineConnectionClose
  | responseHeaderLineAndContentLengthAndConnectionClose
  | responseHeaderLineAndTransferEncodingChunkedAndConnectionClose
  | responseContent
  | responseContentUntilClosed
  | responseChunkSize
  | responseChunkSizeAndConnectionClose
  | responseChunk
  | responseChunkAndConnectionClose
  | endOfResponseContentUntilClosed
  | endOfResponse
  | waitForDisconnect
deriving DecidableEq

/-- Triggers of the HttpClient state machine. -/
inductive HCTrigger where
  | connectedT
  | requestBegin
  | requestHeader
  | requestChunk
  | continueT
  | breakT
  | requestEnd
  | transferEncodingChunked
  | contentLength
  | connectionClose
  | endOfChunks
  | disconnect
deriving DecidableEq

/-- Events the HttpClient raises while parsing a response. -/
inductive HCEvent where
  | responseStarted (protocol : String) (code : Int) (description : String)
  | headerReceived (key value : String)
  | contentReceived (content : String)
  | responseEnded
deriving DecidableEq

/-- Mutable data of an HttpClient beside the machine state: the parse buffer,
the content length, the bytes handed to TcpClient::Send (one list entry per
call, in call order), and the events raised. -/
structure HCData where
  buffer : String
  contentLength : Nat
  wire : List String
  events : List HCEvent
deriving DecidableEq

/-- Errors of an HttpClient operation: the state-machine exceptions, the
string-conversion InvalidFormatException, std::out_of_range from substr, and
exhausted fuel of the drive loop. -/
inductive HCErr where
  | undefinedTrigger
  | multipleTrigger
  | invalidFormat
  | outOfRange
  | outOfFuel
deriving DecidableEq

/-- Conversion of a state-machine exception. -/
def hcOfSMError : SMError → HCErr
  | .undefinedTrigger => .undefinedTrigger
  | .multipleTrigger => .multipleTrigger

/-- The state machine configuration built in the HttpClient constructor
(all Permits use the default always-true predicate, no SubstateOf). -/
def hcConfigs : List (HCState × StateConfiguration HCState HCTrigger) :=
  [ (.waitForConnection,
      (((StateConfiguration.empty.permit .continueT .waitForConnection
        true).permit .breakT .waitForConnection true).permit .connectedT
        .connected true)),
    (.connected,
      ((StateConfiguration.empty.permit .disconnect .waitForConnection
        true).permit .requestBegin .requestActionLine true)),
    (.requestActionLine,
      (((StateConfiguration.empty.permit .disconnect .waitForConnection
        true).permit .requestHeader .requestHeaderLine true).permit
        .requestChunk .requestLastHeader true)),
    (.requestHeaderLine,
      (((StateConfiguration.empty.permit .disconnect .waitForConnection
        true).permit .requestHeader .requestHeaderLine true).permit
        .requestChunk .requestLastHeader true)),
    (.requestLastHeader,
      ((StateConfiguration.empty.permit .disconnect .waitForConnection
        true).permit .breakT .requestChunk true)),
    (.requestChunk,
      (((StateConfiguration.empty.permit .disconnect .waitForConnection
        true).permit .requestChunk .requestChunk true).permit .requestEnd
        .responseActionLine true)),
    (.responseActionLine,
      (((StateConfiguration.empty.permit .disconnect .waitForConnection
        true).permit .continueT .responseActionLine true).permit .breakT
        .responseHeaderLine true)),
    (.responseHeaderLine,
      ((((((StateConfiguration.empty.permit .disconnect .waitForConnection
        true).permit .continueT .responseHeaderLine true).permit
        .transferEncodingChunked .responseHeaderLineAndTransferEncodingChunked
        true).permit .contentLength .responseHeaderLineAndContentLength
        true).permit .connectionClose .responseHeaderLineConnectionClose
        true).permit .breakT .responseContent true)),
    (.responseHeaderLineAndTransferEncodingChunked,
      ((((StateConfiguration.empty.permit .disconnect .waitForConnection
        true).permit .continueT .responseHeaderLineAndTransferEncodingChunked
        true).permit .connectionClose
        .responseHeaderLineAndTransferEncodingChunkedAndConnectionClose
        true).permit .breakT .responseChunkSize true)),
    (.responseHeaderLineAndContentLength,
      ((((StateConfiguration.empty.permit .disconnect .waitForConnection
        true).permit .connectionClose
        .responseHeaderLineAndContentLengthAndConnectionClose true).permit
        .continueT .responseHeaderLineAndContentLength true).permit .breakT
        .responseContent true)),
    (.responseHeaderLineConnectionClose,
      (((((StateConfiguration.empty.permit .disconnect .waitForConnection
        true).permit .contentLength
        .responseHeaderLineAndContentLengthAndConnectionClose true).permit
        .transferEncodingChunked
        .responseHeaderLineAndTransferEncodingChunkedAndConnectionClose
        true).permit .continueT .responseHeaderLineConnectionClose
        true).permit .breakT .responseContentUntilClosed true)),
    (.responseHeaderLineAndContentLengthAndConnectionClose,
      (((StateConfiguration.empty.permit .disconnect .waitForConnection
        true).permit .continueT
        .responseHeaderLineAndContentLengthAndConnectionClose true).permit
        .breakT .responseContentUntilClosed true)),
    (.responseHeaderLineAndTransferEncodingChunkedAndConnectionClose,
      (((StateConfiguration.empty.permit .disconnect .waitForConnection
        true).permit .continueT
        .responseHeaderLineAndTransferEncodingChunkedAndConnectionClose
        true).permit .breakT .responseChunkSizeAndConnectionClose true)),
    (.responseContentUntilClosed,
      (((StateConfiguration.empty.permit .disconnect
        .endOfResponseContentUntilClosed true).permit .continueT
        .responseContentUntilClosed true).permit .breakT
        .endOfResponseContentUntilClosed true)),
    (.responseContent,
      (((StateConfiguration.empty.permit .disconnect .waitForConnection
        true).permit .continueT .responseContent true).permit .breakT
        .endOfResponse true)),
    (.responseChunkSize,
      ((((StateConfiguration.empty.permit .disconnect .waitForConnection
        true).permit .continueT .responseChunkSize true).permit .endOfChunks
        .endOfResponse true).permit .breakT .responseChunk true)),
    (.responseChunkSizeAndConnectionClose,
      ((((StateConfiguration.empty.permit .disconnect .waitForConnection
        true).permit .continueT .responseChunkSizeAndConnectionClose
        true).permit .endOfChunks .endOfResponseContentUntilClosed
        true).permit .breakT .responseChunkAndConnectionClose true)),
    (.responseChunk,
      (((StateConfiguration.empty.permit .disconnect .waitForConnection
        true).permit .continueT .responseChunk true).permit .breakT
        .responseChunkSize true)),
    (.responseChunkAndConnectionClose,
      (((StateConfiguration.empty.permit .disconnect .waitForConnection
        true).permit .continueT .responseChunkAndConnectionClose true).permit
        .breakT .responseChunkSizeAndConnectionClose true)),
    (.endOfResponseContentUntilClosed,
      (((StateConfiguration.empty.permit .disconnect .waitForConnection
        true).permit .continueT .endOfResponseContentUntilClosed true).permit
        .breakT .waitForDisconnect true)),
    (.waitForDisconnect,
      (StateConfiguration.empty.permit .disconnect .waitForConnection true)),
    (.endOfResponse,
      ((StateConfiguration.empty.permit .disconnect .waitForConnection
        true).permit .requestBegin .requestActionLine true)) ]

/-- HttpClient::ActionLineEntered: parse "PROTO CODE DESC\r\n", consume it,
reset the content length and raise ResponseStarted; wait on partial data. -/
def hcActionLineEntered (d : HCData) : Except HCErr (HCData × Option HCTrigger) :=
  match strFindFrom d.buffer " " 0 with
  | none => .ok (d, none)
  | some endOfProtocol =>
    match strFindFrom d.buffer " " (endOfProtocol + 1) with
    | none => .ok (d, none)
    | some endOfCode =>
      match strFindFrom d.buffer "\r\n" (endOfCode + 1) with
      | none => .ok (d, none)
      | some endOfDescription =>
        let protocol := d.buffer.take endOfProtocol
        let codeStr :=
          (d.buffer.drop (endOfProtocol + 1)).take (endOfCode - endOfProtocol - 1)
        let description :=
          (d.buffer.drop (endOfCode + 1)).take (endOfDescription - endOfCode - 1)
        match parseDecInt codeStr with
        | none => .error .invalidFormat
        | some code =>
          .ok ({ d with
                  buffer := d.buffer.drop (endOfDescription + 2),
                  contentLength := 0,
                  events := d.events ++ [.responseStarted protocol code description] },
               some .breakT)

/-- HttpClient::HeaderLineEntered: an empty line ends the headers; otherwise
slice the line at the colon (the value starts two characters after it; when
the colon sits at or after the line terminator the size_t length underflows
and substr takes the rest of the buffer), raise HeaderReceived and route on
the recognized header keys. -/
def hcHeaderLineEntered (d : HCData) : Except HCErr (HCData × Option HCTrigger) :=
  match strFindFrom d.buffer "\r\n" 0 with
  | none => .ok (d, none)
  | some endOfValue =>
    if endOfValue = 0 then
      .ok ({ d with buffer := d.buffer.drop 2 }, some .breakT)
    else
      match strFindFrom d.buffer ":" 0 with
      | none => .ok (d, none)
      | some endOfKey =>
        if d.buffer.length < endOfKey + 2 then .error .outOfRange
        else
          let key := d.buffer.take endOfKey
          let value :=
            if endOfKey + 2 ≤ endOfValue then
              (d.buffer.drop (endOfKey + 2)).take (endOfValue - endOfKey - 2)
            else
              d.buffer.drop (endOfKey + 2)
          let d2 := { d with
                       buffer := d.buffer.drop (endOfValue + 2),
                       events := d.events ++ [.headerReceived key value] }
          if strLower key = "transfer-encoding" ∧ strLower value = "chunked" then
            .ok (d2, some .transferEncodingChunked)
          else if strLower key = "content-length" then
            match parseDecNat value with
            | none => .error .invalidFormat
            | some n => .ok ({ d2 with contentLength := n }, some .contentLength)
          else if strLower key = "connection" ∧ strLower value = "close" then
            .ok (d2, some .connectionClose)
          else
            .ok (d2, some .continueT)

/-- HttpClient::ContentEntered: drained content ends the body; otherwise
consume up to contentLength buffered bytes and raise ContentReceived. -/
def hcContentEntered (d : HCData) : Except HCErr (HCData × Option HCTrigger) :=
  if d.contentLength = 0 then .ok (d, some .breakT)
  else if d.buffer ≠ "" then
    let count := if d.contentLength < d.buffer.length then d.contentLength
                 else d.buffer.length
    let chunk := d.buffer.take count
    .ok ({ d with
            buffer := d.buffer.drop count,
            contentLength := d.contentLength - count,
            events := d.events ++ [.contentReceived chunk] },
         some .continueT)
  else .ok (d, none)

/-- HttpClient::ContentUntilClosedEntered: raise all buffered bytes. -/
def hcContentUntilClosedEntered (d : HCData) :
    Except HCErr (HCData × Option HCTrigger) :=
  if d.buffer ≠ "" then
    .ok ({ d with
            buffer := "",
            events := d.events ++ [.contentReceived d.buffer] },
         some .continueT)
  else .ok (d, none)

/-- HttpClient::ChunkSizeEntered: parse the hexadecimal chunk size line and
consume it; a zero size performs the second erase of the source (which reuses
endOfSize + 2 as the count) and ends the chunks. -/
def hcChunkSizeEntered (d : HCData) : Except HCErr (HCData × Option HCTrigger) :=
  match strFindFrom d.buffer "\r\n" 0 with
  | none => .ok (d, none)
  | some endOfSize =>
    match parseHexNat (d.buffer.take endOfSize) with
    | none => .error .invalidFormat
    | some n =>
      let buf1 := d.buffer.drop (endOfSize + 2)
      if n = 0 then
        .ok ({ d with buffer := buf1.drop (endOfSize + 2), contentLength := n },
             some .endOfChunks)
      else
        .ok ({ d with buffer := buf1, contentLength := n }, some .breakT)

/-- HttpClient::ChunkEntered: with the chunk drained, consume the trailing
CRLF; otherwise consume up to contentLength bytes and raise
ContentReceived. -/
def hcChunkEntered (d : HCData) : Except HCErr (HCData × Option HCTrigger) :=
  if d.contentLength = 0 then
    if 2 ≤ d.buffer.length ∧ d.buffer.take 2 = "\r\n" then
      .ok ({ d with buffer := d.buffer.drop 2 }, some .breakT)
    else .ok (d, none)
  else if d.buffer ≠ "" then
    let count := if d.contentLength < d.buffer.length then d.contentLength
                 else d.buffer.length
    let chunk := d.buffer.take count
    .ok ({ d with
            buffer := d.buffer.drop count,
            contentLength := d.contentLength - count,
            events := d.events ++ [.contentReceived chunk] },
         some .continueT)
  else .ok (d, none)

/-- Entry handlers of the HttpClient states; the optional trigger is the one
the handler fires in tail position. -/
def hcEntry : HCState → HCData → Except HCErr (HCData × Option HCTrigger)
  | .waitForConnection, d => .ok ({ d with buffer := "" }, none)
  | .requestLastHeader, d =>
    .ok ({ d with wire := d.wire ++ ["Transfer-Encoding: chunked\r\n\r\n"] },
         some .breakT)
  | .responseActionLine, d => hcActionLineEntered d
  | .responseHeaderLine, d => hcHeaderLineEntered d
  | .responseHeaderLineAndTransferEncodingChunked, d => hcHeaderLineEntered d
  | .responseHeaderLineAndContentLength, d => hcHeaderLineEntered d
  | .responseHeaderLineConnectionClose, d => hcHeaderLineEntered d
  | .responseHeaderLineAndContentLengthAndConnectionClose, d => hcHeaderLineEntered d
  | .responseHeaderLineAndTransferEncodingChunkedAndConnectionClose, d =>
    hcHeaderLineEntered d
  | .responseContent, d => hcContentEntered d
  | .responseContentUntilClosed, d => hcContentUntilClosedEntered d
  | .responseChunkSize, d => hcChunkSizeEntered d
  | .responseChunkSizeAndConnectionClose, d => hcChunkSizeEntered d
  | .responseChunk, d => hcChunkEntered d
  | .responseChunkAndConnectionClose, d => hcChunkEntered d
  | .endOfResponseContentUntilClosed, d =>
    .ok ({ d with events := d.events ++ [.responseEnded] }, some .breakT)
  | .endOfResponse, d =>
    .ok ({ d with events := d.events ++ [.responseEnded] }, none)
  | _, d => .ok (d, none)

/-- Drive loop of the HttpClient machine: Fire resolves the destination
(HttpClient uses no guards and no sub-states), the destination entry handler
runs and possibly fires the next trigger.  Every entry handler fires in tail
position, so the re-entrant C++ recursion is this fuel-bounded loop. -/
def hcFireLoop : Nat → HCState → HCTrigger → HCData → Except HCErr (HCState × HCData)
  | 0, _, _, _ => .error .outOfFuel
  | fuel + 1, st, t, d =>
    match (fire 1 ⟨hcConfigs, st⟩ t).2 with
    | .error e => .error (hcOfSMError e)
    | .ok _ =>
      let st2 := (fire 1 ⟨hcConfigs, st⟩ t).1.state
      match hcEntry st2 d with
      | .error e => .error e
      | .ok (d2, none) => .ok (st2, d2)
      | .ok (d2, some t2) => hcFireLoop fuel st2 t2 d2

/-- HttpClient::OnDataReceived: append the received bytes to the parse buffer
and fire Continue. -/
def hcOnDataReceived (fuel : Nat) (st : HCState) (d : HCData) (data : String) :
    Except HCErr (HCState × HCData) :=
  hcFireLoop fuel st .continueT { d with buffer := d.buffer ++ data }

/-- HttpClient::Begin: fire RequestBegin, then send the action line. -/
def hcBegin (fuel : Nat) (st : HCState) (d : HCData)
    (method path protocol : String) : Except HCErr (HCState × HCData) :=
  match hcFireLoop fuel st .requestBegin d with
  | .error e => .error e
  | .ok (st2, d2) =>
    .ok (st2, { d2 with
                 wire := d2.wire ++ [method ++ " " ++ path ++ " " ++ protocol ++ "\r\n"] })

/-- HttpClient::SendHeader: fire RequestHeader, then send the header line. -/
def hcSendHeader (fuel : Nat) (st : HCState) (d : HCData)
    (key value : String) : Except HCErr (HCState × HCData) :=
  match hcFireLoop fuel st .requestHeader d with
  | .error e => .error e
  | .ok (st2, d2) =>
    .ok (st2, { d2 with wire := d2.wire ++ [key ++ ": " ++ value ++ "\r\n"] })

/-- HttpClient::Send: fire RequestChunk (entering the last-header state sends
the Transfer-Encoding header first), then send the chunk framing unless the
data is empty. -/
def hcSend (fuel : Nat) (st : HCState) (d : HCData) (data : String) :
    Except HCErr (HCState × HCData) :=
  match hcFireLoop fuel st .requestChunk d with
  | .error e => .error e
  | .ok (st2, d2) =>
    if data = "" then .ok (st2, d2)
    else
      .ok (st2, { d2 with
                   wire := d2.wire ++
                     [natToHex data.length ++ "\r\n" ++ data ++ "\r\n"] })

/-- HttpClient::End: fire RequestEnd, then send the final zero chunk. -/
def hcEnd (fuel : Nat) (st : HCState) (d : HCData) :
    Except HCErr (HCState × HCData) :=
  match hcFireLoop fuel st .requestEnd d with
  | .error e => .error e
  | .ok (st2, d2) => .ok (st2, { d2 with wire := d2.wire ++ ["0\r\n\r\n"] })

/-- HttpClient data directly after construction. -/
def hcData0 : HCData := ⟨"", 0, [], []⟩

/-! ## XML (Xml.hpp) -/

/-- One pass of String::Replace: scan left to right, replace each occurrence
of the pattern and continue searching after the replacement text.  The fuel,
instantiated with the length of the scanned text, only serves structural
termination; the text shrinks at least as fast. -/
def replaceAux (p : Char) (ps : List Char) (post : List Char) :
    Nat → List Char → List Char
  | _, [] => []
  | 0, l => l
  | fuel + 1, c :: rest =>
    if c = p ∧ matchesAt ps rest then
      post ++ replaceAux p ps post fuel (rest.drop ps.length)
    else
      c :: replaceAux p ps post fuel rest

/-- String::Replace(value, pre, post); the source never passes an empty
pattern (that call would not terminate). -/
def cppReplace (value pre post : String) : String :=
  match pre.data with
  | [] => value
  | p :: ps => String.mk (replaceAux p ps post.data value.data.length value.data)

/-- XmlElement::Escape. -/
def xmlEscape (value : String) : String :=
  let e1 := cppReplace value "&" "&amp;"
  let e2 := cppReplace e1 "\x27" "&apos;"
  let e3 := cppReplace e2 "\x22" "&quot;"
  let e4 := cppReplace e3 "<" "&lt;"
  cppReplace e4 ">" "&gt;"

/-- XmlElement::Unescape. -/
def xmlUnescape (value : String) : String :=
  let u1 := cppReplace value "&apos;" "\x27"
  let u2 := cppReplace u1 "&quot;" "\x22"
  let u3 := cppReplace u2 "&lt;" "<"
  let u4 := cppReplace u3 "&gt;" ">"
  cppReplace u4 "&amp;" "&"

/-- Body of String::Split: std::getline collects characters up to the
delimiter; a read at end-of-stream fails without producing an item, so a
trailing delimiter yields no trailing empty part. -/
def cppSplitAux (d : Char) : List Char → List Char → List String
  | [], acc => [String.mk acc.reverse]
  | c :: rest, acc =>
    if c = d then
      String.mk acc.reverse :: (if rest.isEmpty then [] else cppSplitAux d rest [])
    else
      cppSplitAux d rest (c :: acc)

/-- String::Split(value, delimiter): an empty value yields no parts. -/
def cppSplit (value : String) (d : Char) : List String :=
  match value.data with
  | [] => []
  | l => cppSplitAux d l []

/-- States of the progressive XML parser state machine. -/
inductive XpState where
  | openElement
  | ignoreDeclaration
  | closeElement
  | optionalSlashOrQuestionAfterOpenElement
  | startElement
  | endElement
  | optionalAttribute
  | attributeName
  | optionalSlashAfterAttributes
  | immediateEndElement
  | optionalOpenElement
  | elementData
  | attributeAssignment
  | attributeValueDetermineQuotes
  | startAttributeValueSingleQuotes
  | startAttributeValueDoubleQuotes
  | endAttributeValueSingleQuotes
  | endAttributeValueDoubleQuotes
  | optionalWhitespaceBeforeAttribute
deriving DecidableEq

/-- Triggers of the progressive XML parser state machine. -/
inductive XpTrigger where
  | append
  | openElementReceived
  | declarationReceived
  | optionalSlashPresent
  | optionalQuestionPresent
  | optionalSlashNotPresent
  | elementNameReceived
  | optionalAttributePresent
  | optionalAttributeNotPresent
  | optionalOpenElementPresent
  | optionalOpenElementNotPresent
  | elementDataReceived
  | closeElementReceived
  | attributeNameReceived
  | attributeAssignmentReceived
  | singleQuotesReceived
  | doubleQuotesReceived
  | attributeValueReceived
  | whitespaceReceived
  | immediateEndElementReceived
deriving DecidableEq

/-- Token events of the progressive XML parser. -/
inductive XmlEvent where
  | startElement (ns name : String)
  | endElement (ns name : String)
  | attributeName (ns name : String)
  | attributeValue (value : String)
  | data (text : String)
deriving DecidableEq

/-- Mutable data of the progressive parser beside the machine state. -/
structure XpData where
  buffer : String
  elementNamespaceAndName : List String
  events : List XmlEvent
deriving DecidableEq

/-- The state machine configuration built in the ProgressiveParser
constructor; every state self-loops on Append. -/
def xpConfigs : List (XpState × StateConfiguration XpState XpTrigger) :=
  [ (.openElement,
      ((StateConfiguration.empty.permit .append .openElement true).permit
        .openElementReceived .optionalSlashOrQuestionAfterOpenElement true)),
    (.optionalSlashOrQuestionAfterOpenElement,
      ((((StateConfiguration.empty.permit .append
        .optionalSlashOrQuestionAfterOpenElement true).permit
        .optionalQuestionPresent .ignoreDeclaration true).permit
        .optionalSlashPresent .endElement true).permit
        .optionalSlashNotPresent .startElement true)),
    (.ignoreDeclaration,
      ((StateConfiguration.empty.permit .append .ignoreDeclaration
        true).permit .declarationReceived .openElement true)),
    (.endElement,
      ((StateConfiguration.empty.permit .append .endElement true).permit
        .elementNameReceived .openElement true)),
    (.startElement,
      ((StateConfiguration.empty.permit .append .startElement true).permit
        .elementNameReceived .optionalWhitespaceBeforeAttribute true)),
    (.optionalWhitespaceBeforeAttribute,
      ((StateConfiguration.empty.permit .append
        .optionalWhitespaceBeforeAttribute true).permit .whitespaceReceived
        .optionalAttribute true)),
    (.optionalAttribute,
      (((StateConfiguration.empty.permit .append .optionalAttribute
        true).permit .optionalAttributePresent .attributeName true).permit
        .optionalAttributeNotPresent .optionalSlashAfterAttributes true)),
    (.attributeName,
      ((StateConfiguration.empty.permit .append .attributeName true).permit
        .attributeNameReceived .attributeAssignment true)),
    (.attributeAssignment,
      ((StateConfiguration.empty.permit .append .attributeAssignment
        true).permit .attributeAssignmentReceived
        .attributeValueDetermineQuotes true)),
    (.attributeValueDetermineQuotes,
      (((StateConfiguration.empty.permit .append
        .attributeValueDetermineQuotes true).permit .singleQuotesReceived
        .startAttributeValueSingleQuotes true).permit .doubleQuotesReceived
        .startAttributeValueDoubleQuotes true)),
    (.startAttributeValueSingleQuotes,
      ((StateConfiguration.empty.permit .append
        .startAttributeValueSingleQuotes true).permit .attributeValueReceived
        .endAttributeValueSingleQuotes true)),
    (.startAttributeValueDoubleQuotes,
      ((StateConfiguration.empty.permit .append
        .startAttributeValueDoubleQuotes true).permit .attributeValueReceived
        .endAttributeValueDoubleQuotes true)),
    (.endAttributeValueSingleQuotes,
      ((StateConfiguration.empty.permit .append
        .endAttributeValueSingleQuotes true).permit .singleQuotesReceived
        .optionalWhitespaceBeforeAttribute true)),
    (.endAttributeValueDoubleQuotes,
      ((StateConfiguration.empty.permit .append
        .endAttributeValueDoubleQuotes true).permit .doubleQuotesReceived
        .optionalWhitespaceBeforeAttribute true)),
    (.optionalSlashAfterAttributes,
      (((StateConfiguration.empty.permit .append .optionalSlashAfterAttributes
        true).permit .optionalSlashPresent .immediateEndElement true).permit
        .optionalSlashNotPresent .closeElement true)),
    (.immediateEndElement,
      ((StateConfiguration.empty.permit .append .immediateEndElement
        true).permit .immediateEndElementReceived .openElement true)),
    (.closeElement,
      ((StateConfiguration.empty.permit .append .closeElement true).permit
        .closeElementReceived .optionalOpenElement true)),
    (.optionalOpenElement,
      (((StateConfiguration.empty.permit .append .optionalOpenElement
        true).permit .optionalOpenElementPresent .openElement true).permit
        .optionalOpenElementNotPresent .elementData true)),
    (.elementData,
      ((StateConfiguration.empty.permit .append .elementData true).permit
        .elementDataReceived .openElement true)) ]

/-- The end-element event for a namespace-and-name split (one part has no
namespace, two parts carry one; other sizes raise nothing). -/
def xpEndEventOf (parts : List String) : List XmlEvent :=
  match parts with
  | [n] => [.endElement "" n]
  | [ns, n] => [.endElement ns n]
  | _ => []

/-- Entry handlers of the progressive parser states; the optional trigger is
the one the handler fires in tail position. -/
def xpEntry : XpState → XpData → XpData × Option XpTrigger
  | .openElement, d =>
    match d.buffer.data with
    | '<' :: _ => ({ d with buffer := d.buffer.drop 1 }, some .openElementReceived)
    | _ => (d, none)
  | .optionalSlashOrQuestionAfterOpenElement, d =>
    match d.buffer.data with
    | [] => (d, none)
    | '/' :: _ => (d, some .optionalSlashPresent)
    | '?' :: _ => (d, some .optionalQuestionPresent)
    | _ => (d, some .optionalSlashNotPresent)
  | .ignoreDeclaration, d =>
    match strFindFrom d.buffer "?>" 0 with
    | none => (d, none)
    | some e => ({ d with buffer := d.buffer.drop (e + 2) }, some .declarationReceived)
  | .endElement, d =>
    match strFindFrom d.buffer ">" 0 with
    | none => (d, none)
    | some e =>
      let parts := cppSplit ((d.buffer.drop 1).take (e - 1)) ':'
      ({ d with
          buffer := d.buffer.drop (e + 1),
          events := d.events ++ xpEndEventOf parts },
       some .elementNameReceived)
  | .startElement, d =>
    match findFirstOf d.buffer ['/', '>', ' ', '\t', '\r', '\n'] with
    | none => (d, none)
    | some e =>
      let parts := cppSplit (d.buffer.take e) ':'
      ({ d with
          buffer := d.buffer.drop e,
          elementNamespaceAndName := parts,
          events := d.events ++
            (match parts with
             | [n] => [.startElement "" n]
             | [ns, n] => [.startElement ns n]
             | _ => []) },
       some .elementNameReceived)
  | .optionalWhitespaceBeforeAttribute, d =>
    match findFirstNotOf d.buffer ['?', ' ', '\t', '\r', '\n'] with
    | none => (d, none)
    | some e => ({ d with buffer := d.buffer.drop e }, some .whitespaceReceived)
  | .optionalAttribute, d =>
    match d.buffer.data with
    | [] => (d, none)
    | c :: _ =>
      if c = '/' ∨ c = '>' then (d, some .optionalAttributeNotPresent)
      else (d, some .optionalAttributePresent)
  | .attributeName, d =>
    match strFindFrom d.buffer "=" 0 with
    | none => (d, none)
    | some e =>
      let parts := cppSplit (d.buffer.take e) ':'
      ({ d with
          buffer := d.buffer.drop e,
          events := d.events ++
            (match parts with
             | [n] => [.attributeName "" n]
             | [ns, n] => [.attributeName ns n]
             | _ => []) },
       some .attributeNameReceived)
  | .attributeAssignment, d =>
    match d.buffer.data with
    | '=' :: _ => ({ d with buffer := d.buffer.drop 1 }, some .attributeAssignmentReceived)
    | _ => (d, none)
  | .attributeValueDetermineQuotes, d =>
    match d.buffer.data with
    | '\x22' :: _ => ({ d with buffer := d.buffer.drop 1 }, some .doubleQuotesReceived)
    | '\x27' :: _ => ({ d with buffer := d.buffer.drop 1 }, some .singleQuotesReceived)
    | _ => (d, none)
  | .startAttributeValueSingleQuotes, d =>
    match strFindFrom d.buffer "\x27" 0 with
    | none => (d, none)
    | some e =>
      ({ d with
          buffer := d.buffer.drop e,
          events := d.events ++ [.attributeValue (d.buffer.take e)] },
       some .attributeValueReceived)
  | .startAttributeValueDoubleQuotes, d =>
    match strFindFrom d.buffer "\x22" 0 with
    | none => (d, none)
    | some e =>
      ({ d with
          buffer := d.buffer.drop e,
          events := d.events ++ [.attributeValue (d.buffer.take e)] },
       some .attributeValueReceived)
  | .endAttributeValueSingleQuotes, d =>
    match d.buffer.data with
    | '\x27' :: _ => ({ d with buffer := d.buffer.drop 1 }, some .singleQuotesReceived)
    | _ => (d, none)
  | .endAttributeValueDoubleQuotes, d =>
    match d.buffer.data with
    | '\x22' :: _ => ({ d with buffer := d.buffer.drop 1 }, some .doubleQuotesReceived)
    | _ => (d, none)
  | .optionalSlashAfterAttributes, d =>
    match d.buffer.data with
    | [] => (d, none)
    | '/' :: _ => (d, some .optionalSlashPresent)
    | _ => (d, some .optionalSlashNotPresent)
  | .immediateEndElement, d =>
    if 2 ≤ d.buffer.length ∧ d.buffer.take 2 = "/>" then
      ({ d with
          buffer := d.buffer.drop 2,
          events := d.events ++ xpEndEventOf d.elementNamespaceAndName },
       some .immediateEndElementReceived)
    else (d, none)
  | .closeElement, d =>
    match d.buffer.data with
    | '>' :: _ => ({ d with buffer := d.buffer.drop 1 }, some .closeElementReceived)
    | _ => (d, none)
  | .optionalOpenElement, d =>
    match d.buffer.data with
    | [] => (d, none)
    | '<' :: _ => (d, some .optionalOpenElementPresent)
    | _ => (d, some .optionalOpenElementNotPresent)
  | .elementData, d =>
    match strFindFrom d.buffer "<" 0 with
    | none =>
      ({ d with
          buffer := "",
          events := d.events ++ [.data (xmlUnescape d.buffer)] },
       none)
    | some e =>
      ({ d with
          buffer := d.buffer.drop e,
          events := d.events ++ [.data (xmlUnescape (d.buffer.take e))] },
       some .elementDataReceived)

/-- Errors of a progressive-parser operation. -/
inductive XpErr where
  | undefinedTrigger
  | multipleTrigger
  | outOfFuel
deriving DecidableEq

/-- Conversion of a state-machine exception. -/
def xpOfSMError : SMError → XpErr
  | .undefinedTrigger => .undefinedTrigger
  | .multipleTrigger => .multipleTrigger

/-- Drive loop of the progressive parser machine (no guards, no sub-states;
every entry handler fires in tail position). -/
def xpFireLoop : Nat → XpState → XpTrigger → XpData → Except XpErr (XpState × XpData)
  | 0, _, _, _ => .error .outOfFuel
  | fuel + 1, st, t, d =>
    match (fire 1 ⟨xpConfigs, st⟩ t).2 with
    | .error e => .error (xpOfSMError e)
    | .ok _ =>
      let st2 := (fire 1 ⟨xpConfigs, st⟩ t).1.state
      match xpEntry st2 d with
      | (d2, none) => .ok (st2, d2)
      | (d2, some t2) => xpFireLoop fuel st2 t2 d2

/-- ProgressiveParser::Append: append the bytes to the parse buffer and fire
Append. -/
def xpAppend (fuel : Nat) (st : XpState) (d : XpData) (value : String) :
    Except XpErr (XpState × XpData) :=
  xpFireLoop fuel st .append { d with buffer := d.buffer ++ value }

/-- Progressive parser data directly after construction. -/
def xpData0 : XpData := ⟨"", [], []⟩

/-! ## XML DOM (XmlElement, XmlAttribute) -/

/-- XmlAttribute: namespace, name and value. -/
structure XmlAttributeM where
  ns : String
  name : String
  value : String
deriving DecidableEq

/-- XmlAttribute::Exists: the attribute exists when its name is non-empty. -/
def XmlAttributeM.existsA (a : XmlAttributeM) : Bool :=
  a.name ≠ ""

/-- The shared static XmlElement::NullAttribute. -/
def nullAttribute : XmlAttributeM := ⟨"", "", ""⟩

/-- XmlElement: namespace, name, value, the attribute std::map and child
std::multimap.  Both collections are association lists kept in ascending key
order (the tree order of the C++ containers), entries with equal keys in
insertion order. -/
inductive XmlElementM where
  | mk (ns name value : String)
      (attributes : List (String × XmlAttributeM))
      (elements : List (String × XmlElementM))

/-- Namespace of an element. -/
def XmlElementM.ns : XmlElementM → String
  | .mk n _ _ _ _ => n

/-- Name of an element. -/
def XmlElementM.name : XmlElementM → String
  | .mk _ n _ _ _ => n

/-- Value of an element. -/
def XmlElementM.value : XmlElementM → String
  | .mk _ _ v _ _ => v

/-- Attribute collection of an element. -/
def XmlElementM.attributes : XmlElementM → List (String × XmlAttributeM)
  | .mk _ _ _ a _ => a

/-- Child collection of an element. -/
def XmlElementM.elements : XmlElementM → List (String × XmlElementM)
  | .mk _ _ _ _ e => e

/-- XmlElement::Exists: the element exists when its name is non-empty. -/
def XmlElementM.existsE (e : XmlElementM) : Bool :=
  e.name ≠ ""

/-- The shared static XmlElement::NullElement. -/
def nullElement : XmlElementM := .mk "" "" "" [] []

/-- XmlElement::Key: the lowercased "ns:name" lookup key. -/
def xmlKey (ns name : String) : String :=
  strLower (ns ++ ":" ++ name)

/-- Lexicographic comparison of character lists by code point, as the
std::string operator< byte comparison behaves on ASCII data. -/
def charListLt : List Char → List Char → Bool
  | [], [] => false
  | [], _ :: _ => true
  | _ :: _, [] => false
  | a :: as, b :: bs =>
    if a.toNat < b.toNat then true
    else if b.toNat < a.toNat then false
    else charListLt as bs

/-- Comparison used by the C++ containers: std::string operator< is
lexicographic byte comparison. -/
def keyLt (a b : String) : Bool :=
  charListLt a.data b.data

/-- Insertion into std::map/std::multimap without a hint: the new entry lands
at the upper bound of its key, after every entry with a key less than or
equal to it. -/
def mapInsertUpper {α : Type} (k : String) (v : α) :
    List (String × α) → List (String × α)
  | [] => [(k, v)]
  | (k0, v0) :: rest =>
    if keyLt k k0 then (k, v) :: (k0, v0) :: rest
    else (k0, v0) :: mapInsertUpper k v rest

/-- std::map/std::multimap find: the matching entry (for the multimap the
leftmost of the equal range). -/
def mapFind {α : Type} (k : String) : List (String × α) → Option α
  | [] => none
  | (k0, v0) :: rest => if k0 = k then some v0 else mapFind k rest

/-- XmlElement::Add(ns, name): insert a fresh child under its key and return
it. -/
def XmlElementM.add (e : XmlElementM) (ns name : String) :
    XmlElementM × XmlElementM :=
  let child : XmlElementM := .mk ns name "" [] []
  (.mk e.ns e.name e.value e.attributes
    (mapInsertUpper (xmlKey ns name) child e.elements), child)

/-- Const XmlElement::Element(ns, name): a missing key returns the shared
NullElement and the element is not modified. -/
def XmlElementM.elementC (e : XmlElementM) (ns name : String) : XmlElementM :=
  match mapFind (xmlKey ns name) e.elements with
  | none => nullElement
  | some c => c

/-- Non-const XmlElement::Element(ns, name): a missing key inserts a fresh
child via Add; the result pairs the updated element with the child the
returned reference designates. -/
def XmlElementM.elementM (e : XmlElementM) (ns name : String) :
    XmlElementM × XmlElementM :=
  match mapFind (xmlKey ns name) e.elements with
  | none => e.add ns name
  | some c => (e, c)

/-- Const XmlElement::Attribute(ns, name): a missing key returns the shared
NullAttribute and the element is not modified. -/
def XmlElementM.attributeC (e : XmlElementM) (ns name : String) : XmlAttributeM :=
  match mapFind (xmlKey ns name) e.attributes with
  | none => nullAttribute
  | some a => a

/-- Non-const XmlElement::Attribute(ns, name): a missing key inserts a fresh
attribute; the result pairs the updated element with the attribute the
returned reference designates. -/
def XmlElementM.attributeM (e : XmlElementM) (ns name : String) :
    XmlElementM × XmlAttributeM :=
  match mapFind (xmlKey ns name) e.attributes with
  | none =>
    let a : XmlAttributeM := ⟨ns, name, ""⟩
    (.mk e.ns e.name e.value
      (mapInsertUpper (xmlKey ns name) a e.attributes) e.elements, a)
  | some a => (e, a)

/-- Update the entry a non-const attribute lookup designates: the composite
e.Attribute(ns, name).Value(v) of the source. -/
def XmlElementM.attributeSetValue (e : XmlElementM) (ns name v : String) :
    XmlElementM :=
  let withEntry := (e.attributeM ns name).1
  .mk withEntry.ns withEntry.name withEntry.value
    (withEntry.attributes.map (fun p =>
      if p.1 = xmlKey ns name then (p.1, ⟨p.2.ns, p.2.name, v⟩) else p))
    withEntry.elements

/-- Whether an entry is the leftmost of its key in the collection. -/
def firstOfKey {α : Type} (k : String) : List (String × α) → Nat → Option Nat
  | [], _ => none
  | (k0, _) :: rest, i => if k0 = k then some i else firstOfKey k rest (i + 1)

/-- Update the child a non-const element lookup designates: the composite
e.Element(ns, name).Value(v) of the source (the leftmost child of the key is
found, inserting one if absent, and its value is assigned). -/
def XmlElementM.elementSetValue (e : XmlElementM) (ns name v : String) :
    XmlElementM :=
  let withEntry := (e.elementM ns name).1
  let k := xmlKey ns name
  let idx := (firstOfKey k withEntry.elements 0).getD 0
  .mk withEntry.ns withEntry.name withEntry.value withEntry.attributes
    (withEntry.elements.mapIdx (fun i p =>
      if i = idx then (p.1, .mk p.2.ns p.2.name v p.2.attributes p.2.elements)
      else p))

/-- Value assignment of a child returned by Add: the composite
e.Add(ns, name).Value(v).  Add inserts at the upper bound of the key, so the
assigned child is the rightmost entry of that key. -/
def XmlElementM.addWithValue (e : XmlElementM) (ns name v : String) :
    XmlElementM :=
  .mk e.ns e.name e.value e.attributes
    (mapInsertUpper (xmlKey ns name) (.mk ns name v [] []) e.elements)

/-- Attributes serialized in collection order, as in
XmlElement::ToStartElementString. -/
def attrsToStr : List (String × XmlAttributeM) → String
  | [] => ""
  | (_, a) :: rest =>
    " " ++ (if a.ns ≠ "" then a.ns ++ ":" else "") ++ a.name ++ "='" ++
      a.value ++ "'" ++ attrsToStr rest

mutual

/-- XmlElement::ToString: start tag, children in collection order, escaped
value, end tag. -/
def XmlElementM.toStr : XmlElementM → String
  | .mk ns name value attributes elements =>
    "<" ++ (if ns ≠ "" then ns ++ ":" else "") ++ name ++
      attrsToStr attributes ++ ">" ++
      elementsToStr elements ++
      xmlEscape value ++
      "</" ++ (if ns ≠ "" then ns ++ ":" else "") ++ name ++ ">"

/-- Children serialized in collection order. -/
def elementsToStr : List (String × XmlElementM) → String
  | [] => ""
  | (_, c) :: rest => c.toStr ++ elementsToStr rest

end

/-- The document of Xml::UnitTest: XmlElement xml("root");
xml.Attribute("attr1").Value("12"); xml.Element("test").Value("abc");
xml.Element("test").Value("def"); xml.Add("test").Value("ghi"). -/
def c7doc : XmlElementM :=
  ((((XmlElementM.mk "" "root" "" [] []).attributeSetValue "" "attr1"
    "12").elementSetValue "" "test" "abc").elementSetValue "" "test"
    "def").addWithValue "" "test" "ghi"

/-- A root whose attributes are inserted in the order b then a. -/
def c7ba : XmlElementM :=
  ((XmlElementM.mk "" "root" "" [] []).attributeSetValue "" "b"
    "1").attributeSetValue "" "a" "2"

/-- The keys of a collection are in ascending order (equal keys allowed):
no later key compares less than an earlier one. -/
def keysSorted {α : Type} (l : List (String × α)) : Prop :=
  l.Pairwise (fun p q => keyLt q.1 p.1 = false)

/-! ## TimeSpan (TimeSpan.hpp)

TimeSpan stores a count of milliseconds in an int64_t.  C++ doubles are
modelled as exact rationals and the int64_t as an unbounded integer (the
rounding error and overflow of the machine types are outside this model, as
the representational-precision proviso of the specification allows). -/

/-- The cast (int64_t) of a floating value: truncation toward zero. -/
def ratTrunc (x : ℚ) : ℤ :=
  x.num.tdiv (x.den : ℤ)

/-- TimeSpan: a count of milliseconds. -/
structure TimeSpanM where
  milliseconds : ℤ
deriving DecidableEq

/-- TimeSpan::FromMilliseconds. -/
def TimeSpanM.fromMilliseconds (x : ℚ) : TimeSpanM := ⟨ratTrunc x⟩

/-- TimeSpan::FromSeconds. -/
def TimeSpanM.fromSeconds (x : ℚ) : TimeSpanM :=
  TimeSpanM.fromMilliseconds (x * 1000)

/-- TimeSpan::FromMinutes. -/
def TimeSpanM.fromMinutes (x : ℚ) : TimeSpanM :=
  TimeSpanM.fromSeconds (x * 60)

/-- TimeSpan::FromHours. -/
def TimeSpanM.fromHours (x : ℚ) : TimeSpanM :=
  TimeSpanM.fromMinutes (x * 60)

/-- TimeSpan::FromDays. -/
def TimeSpanM.fromDays (x : ℚ) : TimeSpanM :=
  TimeSpanM.fromHours (x * 24)

/-- TimeSpan::FromWeeks. -/
def TimeSpanM.fromWeeks (x : ℚ) : TimeSpanM :=
  TimeSpanM.fromDays (x * 7)

/-- TimeSpan::TotalMilliseconds. -/
def TimeSpanM.totalMilliseconds (t : TimeSpanM) : ℚ :=
  (t.milliseconds : ℚ)

/-- TimeSpan::TotalSeconds. -/
def TimeSpanM.totalSeconds (t : TimeSpanM) : ℚ :=
  t.totalMilliseconds / 1000

/-- TimeSpan::TotalMinutes. -/
def TimeSpanM.totalMinutes (t : TimeSpanM) : ℚ :=
  t.totalSeconds / 60

/-- TimeSpan::TotalHours. -/
def TimeSpanM.totalHours (t : TimeSpanM) : ℚ :=
  t.totalMinutes / 60

/-- TimeSpan::TotalDays. -/
def TimeSpanM.totalDays (t : TimeSpanM) : ℚ :=
  t.totalHours / 24

/-- TimeSpan::TotalWeeks. -/
def TimeSpanM.totalWeeks (t : TimeSpanM) : ℚ :=
  t.totalDays / 7

/-! ## Concrete machines used to exercise the generic state machine -/

/-- A machine whose state 0 declares exactly one satisfied transition for
trigger 0 (to state 5) beside an unsatisfied one, with an entry and exit to
observe. -/
def exMachOne : StateMachineM Nat Nat :=
  ⟨[ (0, ((StateConfiguration.empty.permit 0 5 true).permit 0 6 false)),
     (5, StateConfiguration.empty) ], 0⟩

/-- A machine whose state 0 declares two satisfied transitions for
trigger 0. -/
def exMachAmbiguous : StateMachineM Nat Nat :=
  ⟨[ (0, ((StateConfiguration.empty.permit 0 5 true).permit 0 6 true)) ], 0⟩

/-- A machine whose state 0 is a sub-state of 1 and 2; state 1 provides the
only satisfied transition for trigger 0. -/
def exMachParent : StateMachineM Nat Nat :=
  ⟨[ (0, ((StateConfiguration.empty.substateOf 1).substateOf 2)),
     (1, (StateConfiguration.empty.permit 0 7 true)),
     (2, (StateConfiguration.empty.permit 0 8 false)) ], 0⟩

/-- A machine whose state 0 is a sub-state of 1 and 2, both of which provide
satisfied transitions for trigger 0. -/
def exMachTwoParents : StateMachineM Nat Nat :=
  ⟨[ (0, ((StateConfiguration.empty.substateOf 1).substateOf 2)),
     (1, (StateConfiguration.empty.permit 0 7 true)),
     (2, (StateConfiguration.empty.permit 0 8 true)) ], 0⟩

/-- A machine whose state 0 declares a satisfied transition for trigger 0 and
is also a sub-state of 1, which declares a different one: the sub-state
declaration shadows. -/
def exMachShadow : StateMachineM Nat Nat :=
  ⟨[ (0, ((StateConfiguration.empty.permit 0 5 true).substateOf 1)),
     (1, (StateConfiguration.empty.permit 0 7 true)) ], 0⟩

/-- A machine whose state 0 has no satisfied transition of its own and a
single super-state 1 providing trigger 0. -/
def exMachParentOnly : StateMachineM Nat Nat :=
  ⟨[ (0, ((StateConfiguration.empty.permit 0 5 false).substateOf 1)),
     (1, (StateConfiguration.empty.permit 0 7 true)) ], 0⟩

/-- A machine with no satisfied transition anywhere for trigger 0: state 0
has an unsatisfied one and its super-state 1 has none. -/
def exMachNone : StateMachineM Nat Nat :=
  ⟨[ (0, ((StateConfiguration.empty.permit 0 5 false).substateOf 1)),
     (1, (StateConfiguration.empty.permit 1 7 true)) ], 0⟩

/-- Replace (or add) the configuration of one state, used to state that a
shadowed super-state is never consulted. -/
def setConfig {σ τ : Type} [DecidableEq σ]
    (cfgs : List (σ × StateConfiguration σ τ)) (s : σ)
    (cfg : StateConfiguration σ τ) : List (σ × StateConfiguration σ τ) :=
  match cfgs with
  | [] => [(s, cfg)]
  | (s0, c0) :: rest =>
    if s0 = s then (s, cfg) :: rest else (s0, c0) :: setConfig rest s cfg

/-! ## Lemmas about the generic state machine -/

theorem resolveOwn_spec {σ τ : Type} [DecidableEq τ]
    (entries : List (τ × TriggerConfiguration σ)) (t : τ) (acc : Option σ) :
    resolveOwn entries t acc = singleOf (acc.toList ++ satisfiedDests entries t) := by
  induction entries generalizing acc with
  | nil =>
    cases acc <;> simp [resolveOwn, satisfiedDests, singleOf]
  | cons e rest ih =>
    obtain ⟨t0, tc⟩ := e
    by_cases h : t0 = t ∧ tc.predicate = true
    · have hb : (decide (t0 = t) && tc.predicate) = true := by
        simp [h.1, h.2]
      cases acc with
      | none =>
        simp only [resolveOwn, if_pos h, ih, satisfiedDests, List.filter_cons, hb,
          ite_true, List.map_cons]
        rfl
      | some d =>
        simp only [resolveOwn, if_pos h, satisfiedDests, List.filter_cons, hb,
          ite_true, List.map_cons]
        rfl
    · have hb : (decide (t0 = t) && tc.predicate) = false := by
        by_cases h1 : t0 = t
        · have h2 : tc.predicate = false := by
            cases hp : tc.predicate
            · rfl
            · exact absurd ⟨h1, hp⟩ h
          simp [h2]
        · simp [h1]
      simp only [resolveOwn, if_neg h, ih, satisfiedDests, List.filter_cons, hb]
      rfl

theorem transitionParents_spec {σ : Type} (trans : σ → Except SMError (Option σ))
    (parents : List σ) (acc : Option σ)
    (h : ∀ p ∈ parents, ∃ r, trans p = .ok r) :
    transitionParents trans parents acc =
      singleOf (acc.toList ++ parents.filterMap (fun p =>
        match trans p with
        | .ok (some d) => some d
        | _ => none)) := by
  induction parents generalizing acc with
  | nil =>
    cases acc <;> simp [transitionParents, singleOf]
  | cons p rest ih =>
    obtain ⟨r, hr⟩ := h p (by simp)
    have hrest : ∀ q ∈ rest, ∃ r2, trans q = .ok r2 :=
      fun q hq => h q (by simp [hq])
    cases r with
    | none =>
      rw [transitionParents, hr]
      simp only [List.filterMap_cons, hr]
      exact ih acc hrest
    | some d =>
      cases acc with
      | none =>
        rw [transitionParents, hr]
        simp only [List.filterMap_cons, hr]
        simpa using ih (some d) hrest
      | some a =>
        rw [transitionParents, hr]
        simp only [List.filterMap_cons, hr]
        rfl

theorem transitionParents_none {σ : Type} (parents : List σ) (acc : Option σ) :
    transitionParents (fun _ => (.ok none : Except SMError (Option σ)))
      parents acc = .ok acc := by
  induction parents with
  | nil => rfl
  | cons p rest ih => simpa [transitionParents] using ih

theorem transitionStep_own_some {σ τ : Type} [DecidableEq τ]
    (recur : σ → Except SMError (Option σ)) (cfg : StateConfiguration σ τ)
    (t : τ) (d : σ)
    (h : resolveOwn cfg.triggerConfigurations t none = .ok (some d)) :
    transitionStep recur cfg t = .ok (some d) := by
  rw [transitionStep]
  simp [h]

theorem transitionStep_own_error {σ τ : Type} [DecidableEq τ]
    (recur : σ → Except SMError (Option σ)) (cfg : StateConfiguration σ τ)
    (t : τ) (e : SMError)
    (h : resolveOwn cfg.triggerConfigurations t none = .error e) :
    transitionStep recur cfg t = .error e := by
  rw [transitionStep]
  simp [h]

theorem transitionStep_own_none {σ τ : Type} [DecidableEq τ]
    (recur : σ → Except SMError (Option σ)) (cfg : StateConfiguration σ τ)
    (t : τ)
    (h : resolveOwn cfg.triggerConfigurations t none = .ok none) :
    transitionStep recur cfg t = transitionParents recur cfg.superStates none := by
  rw [transitionStep]
  simp [h]

theorem transition_of_noSatisfied {σ τ : Type} [DecidableEq σ] [DecidableEq τ]
    (cfgs : List (σ × StateConfiguration σ τ)) (t : τ) :
    ∀ fuel (s : σ), noSatisfied cfgs t fuel s →
      transition fuel cfgs (lookupConfig cfgs s) t = .ok none := by
  intro fuel
  induction fuel with
  | zero =>
    intro s h
    simp only [noSatisfied, satisfiedOwn] at h
    have hro : resolveOwn (lookupConfig cfgs s).triggerConfigurations t none =
        .ok none := by
      rw [resolveOwn_spec]
      simp [h, singleOf]
    rw [transition, transitionStep_own_none _ _ _ hro, transitionParents_none]
  | succ fuel ih =>
    intro s h
    obtain ⟨h1, h2⟩ := h
    simp only [satisfiedOwn] at h1
    have hro : resolveOwn (lookupConfig cfgs s).triggerConfigurations t none =
        .ok none := by
      rw [resolveOwn_spec]
      simp [h1, singleOf]
    rw [transition, transitionStep_own_none _ _ _ hro,
      transitionParents_spec _ _ none (fun p hp => ⟨none, ih p (h2 p hp)⟩)]
    have hprov : (lookupConfig cfgs s).superStates.filterMap (fun p =>
        match transition fuel cfgs (lookupConfig cfgs p) t with
        | .ok (some d) => some d
        | _ => none) = [] := by
      simp only [List.filterMap_eq_nil_iff]
      intro p hp
      rw [ih p (h2 p hp)]
    simp [hprov, singleOf]

theorem fire_own_single {σ τ : Type} [DecidableEq σ] [DecidableEq τ]
    (fuel : Nat) (m : StateMachineM σ τ) (t : τ)
    (cfg : StateConfiguration σ τ) (d : σ)
    (hfind : findConfig m.stateConfigurations m.state = some cfg)
    (hone : satisfiedOwn cfg t = [d]) :
    fire fuel m t = ({ m with state := d },
      .ok [.exited m.state, .stateSet d, .entered d]) := by
  have hro : resolveOwn cfg.triggerConfigurations t none = .ok (some d) := by
    rw [resolveOwn_spec]
    simp only [satisfiedOwn] at hone
    simp [hone, singleOf]
  have htr : transition fuel m.stateConfigurations cfg t = .ok (some d) := by
    cases fuel with
    | zero => rw [transition]; exact transitionStep_own_some _ _ _ _ hro
    | succ n => rw [transition]; exact transitionStep_own_some _ _ _ _ hro
  rw [fire, canFire, hfind]
  simp [htr]

theorem fire_parent_single {σ τ : Type} [DecidableEq σ] [DecidableEq τ]
    (fuel : Nat) (m : StateMachineM σ τ) (t : τ)
    (cfg : StateConfiguration σ τ) (d : σ)
    (hfind : findConfig m.stateConfigurations m.state = some cfg)
    (hempty : satisfiedOwn cfg t = [])
    (hok : ∀ p ∈ cfg.superStates, ∃ r,
      transition fuel m.stateConfigurations (lookupConfig m.stateConfigurations p) t = .ok r)
    (hprov : providedByParents fuel m.stateConfigurations cfg.superStates t = [d]) :
    fire (fuel + 1) m t = ({ m with state := d },
      .ok [.exited m.state, .stateSet d, .entered d]) := by
  have hro : resolveOwn cfg.triggerConfigurations t none = .ok none := by
    rw [resolveOwn_spec]
    simp only [satisfiedOwn] at hempty
    simp [hempty, singleOf]
  have htr : transition (fuel + 1) m.stateConfigurations cfg t = .ok (some d) := by
    rw [transition, transitionStep_own_none _ _ _ hro,
      transitionParents_spec _ cfg.superStates none hok]
    simp only [providedByParents] at hprov
    simp [hprov, singleOf]
  rw [fire, canFire, hfind]
  simp [htr]

/-- C1: for every configured StateMachine, state s and trigger t: if exactly
one transition for t with a true guard is found, either declared on s, or,
when none of the guards of s holds, provided by exactly one super-state, then
Fire(t) signals the exit handler of s, then sets the current state to the
destination of that transition, then signals the entry handler of the
destination, in that order; and if no transition on s or its super-states has
a true guard, including when s has no configuration at all, Fire(t) throws
UndefinedTrigger and the current state is unchanged. -/
theorem C1_fire_semantics {σ τ : Type} [DecidableEq σ] [DecidableEq τ]
    (fuel : Nat) (m : StateMachineM σ τ) (t : τ) :
    (∀ cfg d, findConfig m.stateConfigurations m.state = some cfg →
       satisfiedOwn cfg t = [d] →
       fire fuel m t = ({ m with state := d },
         .ok [.exited m.state, .stateSet d, .entered d])) ∧
    (∀ cfg d, findConfig m.stateConfigurations m.state = some cfg →
       satisfiedOwn cfg t = [] →
       (∀ p ∈ cfg.superStates, ∃ r,
          transition fuel m.stateConfigurations
            (lookupConfig m.stateConfigurations p) t = .ok r) →
       providedByParents fuel m.stateConfigurations cfg.superStates t = [d] →
       fire (fuel + 1) m t = ({ m with state := d },
         .ok [.exited m.state, .stateSet d, .entered d])) ∧
    (noSatisfied m.stateConfigurations t fuel m.state →
       fire fuel m t = (m, .error .undefinedTrigger)) := by
  refine ⟨?_, ?_, ?_⟩
  · intro cfg d hfind hone
    exact fire_own_single fuel m t cfg d hfind hone
  · intro cfg d hfind hempty hok hprov
    exact fire_parent_single fuel m t cfg d hfind hempty hok hprov
  · intro hns
    have htr := transition_of_noSatisfied m.stateConfigurations t fuel m.state hns
    rw [fire, canFire]
    cases hf : findConfig m.stateConfigurations m.state with
    | none => rfl
    | some cfg =>
      have hlk : lookupConfig m.stateConfigurations m.state = cfg := by
        rw [lookupConfig, hf]
        rfl
      rw [hlk] at htr
      simp [htr]

/-- Witness for C1: a two-way transition on the state itself, a transition
provided by one super-state, and an undefined trigger leaving the state
unchanged. -/
theorem C1_fire_semantics_witness :
    fire 1 exMachOne 0 = ({ exMachOne with state := 5 },
      .ok [.exited 0, .stateSet 5, .entered 5]) ∧
    fire 2 exMachParent 0 = ({ exMachParent with state := 7 },
      .ok [.exited 0, .stateSet 7, .entered 7]) ∧
    fire 2 exMachNone 0 = (exMachNone, .error .undefinedTrigger) := by
  refine ⟨?_, ?_, ?_⟩
  · exact (C1_fire_semantics 1 exMachOne 0).1
      ((StateConfiguration.empty.permit 0 5 true).permit 0 6 false) 5
      (by decide) (by decide)
  · refine (C1_fire_semantics 1 exMachParent 0).2.1
      ((StateConfiguration.empty.substateOf 1).substateOf 2) 7
      (by decide) (by decide) ?_ (by decide)
    intro p hp
    have hs : ((StateConfiguration.empty.substateOf 1).substateOf 2 :
        StateConfiguration Nat Nat).superStates = [1, 2] := by decide
    rw [hs] at hp
    have hp2 : p = 1 ∨ p = 2 := by simpa using hp
    rcases hp2 with h | h
    · exact ⟨some 7, by rw [h]; decide⟩
    · exact ⟨none, by rw [h]; decide⟩
  · refine (C1_fire_semantics 2 exMachNone 0).2.2 ⟨by decide, ?_⟩
    intro p hp
    have hs : (lookupConfig exMachNone.stateConfigurations
        exMachNone.state).superStates = [1] := by
      decide
    rw [hs] at hp
    have hp2 : p = 1 := by simpa using hp
    subst hp2
    refine ⟨by decide, ?_⟩
    intro q hq
    have hq1 : (lookupConfig exMachNone.stateConfigurations 1).superStates = [] := by
      decide
    rw [hq1] at hq
    simp at hq

/-- C2: if two or more transitions permitted for the fired trigger on the
current state have guards that evaluate true, Fire raises the ambiguous
MultipleTriggerException; likewise when no same-state guard holds and more
than one super-state provides a satisfied transition. -/
theorem C2_fire_ambiguous {σ τ : Type} [DecidableEq σ] [DecidableEq τ]
    (fuel : Nat) (m : StateMachineM σ τ) (t : τ) :
    (∀ cfg, findConfig m.stateConfigurations m.state = some cfg →
       2 ≤ (satisfiedOwn cfg t).length →
       fire fuel m t = (m, .error .multipleTrigger)) ∧
    (∀ cfg, findConfig m.stateConfigurations m.state = some cfg →
       satisfiedOwn cfg t = [] →
       (∀ p ∈ cfg.superStates, ∃ r,
          transition fuel m.stateConfigurations
            (lookupConfig m.stateConfigurations p) t = .ok r) →
       2 ≤ (providedByParents fuel m.stateConfigurations cfg.superStates t).length →
       fire (fuel + 1) m t = (m, .error .multipleTrigger)) := by
  constructor
  · intro cfg hfind hlen
    have hro : resolveOwn cfg.triggerConfigurations t none = .error .multipleTrigger := by
      rw [resolveOwn_spec]
      match hl : satisfiedOwn cfg t with
      | [] => rw [hl] at hlen; simp at hlen
      | [d] => rw [hl] at hlen; simp at hlen
      | a :: b :: rest =>
        simp only [satisfiedOwn] at hl
        simp [hl, singleOf]
    have htr : transition fuel m.stateConfigurations cfg t = .error .multipleTrigger := by
      cases fuel with
      | zero => rw [transition]; exact transitionStep_own_error _ _ _ _ hro
      | succ n => rw [transition]; exact transitionStep_own_error _ _ _ _ hro
    rw [fire, canFire, hfind]
    simp [htr]
  · intro cfg hfind hempty hok hlen
    have hro : resolveOwn cfg.triggerConfigurations t none = .ok none := by
      rw [resolveOwn_spec]
      simp only [satisfiedOwn] at hempty
      simp [hempty, singleOf]
    have htr : transition (fuel + 1) m.stateConfigurations cfg t = .error .multipleTrigger := by
      rw [transition, transitionStep_own_none _ _ _ hro,
        transitionParents_spec _ cfg.superStates none hok]
      simp only [providedByParents] at hlen
      match hl : cfg.superStates.filterMap (fun p =>
          match transition fuel m.stateConfigurations (lookupConfig m.stateConfigurations p) t with
          | .ok (some d) => some d
          | _ => none) with
      | [] => rw [hl] at hlen; simp at hlen
      | [d] => rw [hl] at hlen; simp at hlen
      | a :: b :: rest => simp [hl, singleOf]
    rw [fire, canFire, hfind]
    simp [htr]

/-- Witness for C2: two always-true guards on the same trigger of one state,
and two super-states both providing the trigger. -/
theorem C2_fire_ambiguous_witness :
    fire 1 exMachAmbiguous 0 = (exMachAmbiguous, .error .multipleTrigger) ∧
    fire 2 exMachTwoParents 0 = (exMachTwoParents, .error .multipleTrigger) := by
  constructor
  · exact (C2_fire_ambiguous 1 exMachAmbiguous 0).1
      ((StateConfiguration.empty.permit 0 5 true).permit 0 6 true)
      (by decide) (by decide)
  · refine (C2_fire_ambiguous 1 exMachTwoParents 0).2
      ((StateConfiguration.empty.substateOf 1).substateOf 2)
      (by decide) (by decide) ?_ (by decide)
    intro p hp
    have hs : ((StateConfiguration.empty.substateOf 1).substateOf 2 :
        StateConfiguration Nat Nat).superStates = [1, 2] := by decide
    rw [hs] at hp
    have hp2 : p = 1 ∨ p = 2 := by simpa using hp
    rcases hp2 with h | h
    · exact ⟨some 7, by rw [h]; decide⟩
    · exact ⟨some 8, by rw [h]; decide⟩

theorem findConfig_cons {σ τ : Type} [DecidableEq σ] (a : σ)
    (c : StateConfiguration σ τ) (l : List (σ × StateConfiguration σ τ)) (s : σ) :
    findConfig ((a, c) :: l) s = if a = s then some c else findConfig l s := by
  by_cases h : a = s
  · rw [findConfig, List.find?_cons_of_pos _ (by simpa using h), if_pos h]
  · rw [findConfig, List.find?_cons_of_neg _ (by simpa using h), if_neg h]
    rfl

theorem findConfig_setConfig_ne {σ τ : Type} [DecidableEq σ]
    (cfgs : List (σ × StateConfiguration σ τ)) (p s : σ)
    (cfgP : StateConfiguration σ τ) (hne : p ≠ s) :
    findConfig (setConfig cfgs p cfgP) s = findConfig cfgs s := by
  induction cfgs with
  | nil =>
    simp only [setConfig, findConfig_cons, if_neg hne]
  | cons e rest ih =>
    obtain ⟨s0, c0⟩ := e
    by_cases h0 : s0 = p
    · subst h0
      rw [setConfig, if_pos rfl, findConfig_cons, findConfig_cons,
        if_neg hne, if_neg hne]
    · simp only [setConfig, if_neg h0, findConfig_cons, ih]

/-- C3: a satisfied transition declared on the current sub-state is taken and
the super-state is never consulted (the result is the same whatever
configuration the super-state carries); when the sub-state declares no
satisfied transition and its only super-state resolves one, the super-state
transition is taken. -/
theorem C3_substate_shadowing {σ τ : Type} [DecidableEq σ] [DecidableEq τ]
    (fuel : Nat) (m : StateMachineM σ τ) (t : τ) :
    (∀ cfg d p cfgP, findConfig m.stateConfigurations m.state = some cfg →
       satisfiedOwn cfg t = [d] → p ∈ cfg.superStates → p ≠ m.state →
       fire fuel { m with
           stateConfigurations := setConfig m.stateConfigurations p cfgP } t =
         ({ m with
             stateConfigurations := setConfig m.stateConfigurations p cfgP,
             state := d },
          .ok [.exited m.state, .stateSet d, .entered d])) ∧
    (∀ cfg p d, findConfig m.stateConfigurations m.state = some cfg →
       satisfiedOwn cfg t = [] →
       cfg.superStates = [p] →
       transition fuel m.stateConfigurations
         (lookupConfig m.stateConfigurations p) t = .ok (some d) →
       fire (fuel + 1) m t = ({ m with state := d },
         .ok [.exited m.state, .stateSet d, .entered d])) := by
  constructor
  · intro cfg d p cfgP hfind hone hp hne
    have hfind2 : findConfig (setConfig m.stateConfigurations p cfgP) m.state =
        some cfg := by
      rw [findConfig_setConfig_ne m.stateConfigurations p m.state cfgP hne, hfind]
    exact fire_own_single fuel _ t cfg d hfind2 hone
  · intro cfg p d hfind hempty hsup htr
    refine fire_parent_single fuel m t cfg d hfind hempty ?_ ?_
    · intro q hq
      rw [hsup] at hq
      have : q = p := by simpa using hq
      rw [this]
      exact ⟨some d, htr⟩
    · rw [hsup]
      simp [providedByParents, htr]

/-- Witness for C3: the sub-state transition wins whatever the super-state is
configured with, and the only super-state wins when the sub-state has no
satisfied transition. -/
theorem C3_substate_shadowing_witness :
    fire 1 { exMachShadow with
        stateConfigurations := setConfig exMachShadow.stateConfigurations 1
          (StateConfiguration.empty.permit 0 9 true) } 0 =
      ({ exMachShadow with
          stateConfigurations := setConfig exMachShadow.stateConfigurations 1
            (StateConfiguration.empty.permit 0 9 true),
          state := 5 },
       .ok [.exited 0, .stateSet 5, .entered 5]) ∧
    fire 2 exMachParentOnly 0 = ({ exMachParentOnly with state := 7 },
      .ok [.exited 0, .stateSet 7, .entered 7]) := by
  constructor
  · exact (C3_substate_shadowing 1 exMachShadow 0).1
      ((StateConfiguration.empty.permit 0 5 true).substateOf 1) 5 1
      (StateConfiguration.empty.permit 0 9 true)
      (by decide) (by decide) (by decide) (by decide)
  · exact (C3_substate_shadowing 1 exMachParentOnly 0).2
      ((StateConfiguration.empty.permit 0 5 false).substateOf 1) 1 7
      (by decide) (by decide) (by decide) (by decide)

/-! ## TCP client destructor (C10) -/

/-- C10: destroying a TcpClient in the Connected or Connecting state fires
the Disconnected transition from the destructor, so ClientDisconnected is
raised exactly once during destruction; destroying an Idle or already
Disconnected client raises no event. -/
theorem C10_destructor_disconnect :
    tcpDestructorEvents .connected = [.clientDisconnected] ∧
    tcpDestructorEvents .connecting = [.clientDisconnected] ∧
    (tcpDestructorEvents .connected).count .clientDisconnected = 1 ∧
    (tcpDestructorEvents .connecting).count .clientDisconnected = 1 ∧
    tcpDestructorEvents .idle = [] ∧
    tcpDestructorEvents .disconnected = [] := by
  decide

/-! ## HTTP client (C4, C6) -/

/-- C4 fails on the code: with the buffer holding the zero chunk-size line
"0\r\n", its final CRLF and one byte X of input beyond the end of the
response, the chunk-size entry erases endOfSize + 2 = 3 bytes twice (source
lines 434 and 437), so the byte X that should stay buffered is discarded:
the buffer ends empty instead of holding "X".  The first conjunct runs the
full dispatch, the second isolates ChunkSizeEntered itself. -/
theorem C4_chunk_size_discards_input :
    hcOnDataReceived 8 .responseChunkSize ⟨"", 0, [], []⟩ "0\r\n\r\nX" =
      .ok (.endOfResponse, ⟨"", 0, [], [.responseEnded]⟩) ∧
    hcChunkSizeEntered ⟨"0\r\n\r\nX", 0, [], []⟩ =
      .ok (⟨"", 0, [], []⟩, some .endOfChunks) ∧
    ("" : String) ≠ "X" := by
  decide

/-- C6: from the Connected state, Begin/SendHeader/Send("ABC")/End put on the
wire exactly the action line, the header, the automatic Transfer-Encoding
header when chunk sending begins, the framed chunk "3\r\nABC\r\n" and the
final "0\r\n\r\n"; and a Send of an empty chunk never writes chunk framing
(the wire grows at most by the automatic Transfer-Encoding header that
entering the last-header state writes). -/
theorem C6_request_wire :
    ((do
      let r1 ← hcBegin 8 .connected hcData0 "POST" "/" "HTTP/1.1"
      let r2 ← hcSendHeader 8 r1.1 r1.2 "Host" "h"
      let r3 ← hcSend 8 r2.1 r2.2 "ABC"
      hcEnd 8 r3.1 r3.2 : Except HCErr (HCState × HCData)) =
      .ok (.responseActionLine,
        { buffer := "", contentLength := 0,
          wire := ["POST / HTTP/1.1\r\n", "Host: h\r\n",
                   "Transfer-Encoding: chunked\r\n\r\n", "3\r\nABC\r\n",
                   "0\r\n\r\n"],
          events := [] })) ∧
    (∀ (st : HCState) (d : HCData),
      match hcSend 8 st d "" with
      | .ok (_, d2) => d2.wire = d.wire ∨
          d2.wire = d.wire ++ ["Transfer-Encoding: chunked\r\n\r\n"]
      | .error _ => True) := by
  constructor
  · decide
  · intro st d
    cases st <;> first
      | exact trivial
      | exact Or.inl rfl
      | exact Or.inr rfl

/-! ## Progressive XML parser (C5) -/

/-- C5 fails on the code: feeding the whole input emits only the first five
events — StartElement(a,b), AttributeName(-,x), AttributeValue(1),
StartElement(-,c), EndElement(-,c) — and then stalls: the immediate
self-close routes to the open-element state, whose entry handler cannot
consume the text "text", so Data("text") and EndElement(a,b) are never
raised and the machine stays in that state (the second conjunct shows a
further append leaves it stalled, so no chunking recovers). -/
theorem C5_self_close_then_text_stalls :
    xpAppend 64 .openElement xpData0 "<a:b x='1'><c/>text</a:b>" =
      .ok (.openElement,
        { buffer := "text</a:b>",
          elementNamespaceAndName := ["c"],
          events := [.startElement "a" "b", .attributeName "" "x",
                     .attributeValue "1", .startElement "" "c",
                     .endElement "" "c"] }) ∧
    xpAppend 64 .openElement
        ⟨"text</a:b>", ["c"], []⟩ "" =
      .ok (.openElement, ⟨"text</a:b>", ["c"], []⟩) := by
  constructor
  · decide
  · decide

/-! ## XML DOM serialization order (C7) and lookups (C9) -/

theorem charListLt_trans : ∀ {a b c : List Char},
    charListLt a b = true → charListLt b c = true → charListLt a c = true := by
  intro a
  induction a with
  | nil =>
    intro b c hab hbc
    cases b with
    | nil => simp [charListLt] at hab
    | cons y ys =>
      cases c with
      | nil => simp [charListLt] at hbc
      | cons z zs => simp [charListLt]
  | cons x xs ih =>
    intro b c hab hbc
    cases b with
    | nil => simp [charListLt] at hab
    | cons y ys =>
      cases c with
      | nil => simp [charListLt] at hbc
      | cons z zs =>
        simp only [charListLt] at hab hbc ⊢
        by_cases hxy : x.toNat < y.toNat
        · by_cases hyz : y.toNat < z.toNat
          · have hxz : x.toNat < z.toNat := by omega
            simp [hxz]
          · by_cases hzy : z.toNat < y.toNat
            · simp [hyz, hzy] at hbc
            · have hxz : x.toNat < z.toNat := by omega
              simp [hxz]
        · by_cases hyx : y.toNat < x.toNat
          · simp [hxy, hyx] at hab
          · simp only [if_neg hxy, if_neg hyx] at hab
            by_cases hyz : y.toNat < z.toNat
            · have hxz : x.toNat < z.toNat := by omega
              simp [hxz]
            · by_cases hzy : z.toNat < y.toNat
              · simp [hyz, hzy] at hbc
              · simp only [if_neg hyz, if_neg hzy] at hbc
                have hxz : ¬ x.toNat < z.toNat := by omega
                have hzx : ¬ z.toNat < x.toNat := by omega
                simp only [if_neg hxz, if_neg hzx]
                exact ih hab hbc

theorem charListLt_asymm : ∀ {a b : List Char},
    charListLt a b = true → charListLt b a = false := by
  intro a
  induction a with
  | nil =>
    intro b h
    cases b with
    | nil => simp [charListLt] at h
    | cons y ys => simp [charListLt]
  | cons x xs ih =>
    intro b h
    cases b with
    | nil => simp [charListLt] at h
    | cons y ys =>
      simp only [charListLt] at h ⊢
      by_cases hxy : x.toNat < y.toNat
      · have hyx : ¬ y.toNat < x.toNat := by omega
        simp [hyx, hxy]
      · by_cases hyx : y.toNat < x.toNat
        · simp [hxy, hyx] at h
        · simp only [if_neg hxy, if_neg hyx] at h
          simp only [if_neg hyx, if_neg hxy]
          exact ih h

theorem mem_mapInsertUpper {α : Type} (k : String) (v : α) :
    ∀ (l : List (String × α)) (x : String × α),
      x ∈ mapInsertUpper k v l → x ∈ l ∨ x = (k, v) := by
  intro l
  induction l with
  | nil =>
    intro x hx
    rw [mapInsertUpper] at hx
    right
    simpa using hx
  | cons e rest ih =>
    obtain ⟨k0, v0⟩ := e
    intro x hx
    rw [mapInsertUpper] at hx
    by_cases hk : keyLt k k0 = true
    · rw [if_pos hk] at hx
      rcases List.mem_cons.mp hx with rfl | hx2
      · right; rfl
      · left; exact hx2
    · rw [if_neg hk] at hx
      rcases List.mem_cons.mp hx with rfl | hx2
      · left; exact List.mem_cons_self _ _
      · rcases ih x hx2 with h2 | h2
        · left; exact List.mem_cons_of_mem _ h2
        · right; exact h2

theorem keysSorted_mapInsertUpper {α : Type} (k : String) (v : α)
    (l : List (String × α)) (h : keysSorted l) :
    keysSorted (mapInsertUpper k v l) := by
  induction l with
  | nil =>
    rw [mapInsertUpper]
    exact List.pairwise_singleton _ _
  | cons e rest ih =>
    obtain ⟨k0, v0⟩ := e
    rw [keysSorted, List.pairwise_cons] at h
    obtain ⟨h1, h2⟩ := h
    rw [mapInsertUpper]
    by_cases hk : keyLt k k0 = true
    · rw [if_pos hk, keysSorted, List.pairwise_cons]
      constructor
      · intro q hq
        rcases List.mem_cons.mp hq with rfl | hq2
        · exact charListLt_asymm hk
        · have hqk0 : keyLt q.1 k0 = false := h1 q hq2
          show keyLt q.1 k = false
          rw [keyLt]
          cases hq3 : charListLt q.1.data k.data with
          | false => rfl
          | true =>
            have hcon : charListLt q.1.data k0.data = true :=
              charListLt_trans hq3 hk
            rw [keyLt, hcon] at hqk0
            simp at hqk0
      · exact List.pairwise_cons.mpr ⟨h1, h2⟩
    · rw [if_neg hk, keysSorted, List.pairwise_cons]
      constructor
      · intro q hq
        rcases mem_mapInsertUpper k v rest q hq with hq2 | rfl
        · exact h1 q hq2
        · exact Bool.not_eq_true _ ▸ Bool.of_not_eq_true hk
      · exact ih h2

/-- C7 counterexample: the claim says serialization emits attributes in
insertion order; inserting attribute b then attribute a serializes a first
(key order), so the output is not the insertion-order string. -/
theorem C7_attribute_order_counterexample :
    c7ba.toStr = "<root a='2' b='1'></root>" ∧
    c7ba.toStr ≠ "<root b='1' a='2'></root>" := by
  decide

/-- C7 (amended): building the document of Xml::UnitTest through the DOM API
and serializing yields exactly the stated string; in general serialization
emits attributes and child elements in ascending order of their lowercased
"ns:name" keys — every std::map/std::multimap insertion keeps the collection
key-sorted — with equal-key children kept in insertion order (the two "test"
children of the concrete document). -/
theorem C7_serialization_key_order :
    c7doc.toStr = "<root attr1='12'><test>def</test><test>ghi</test></root>" ∧
    (∀ (α : Type) (k : String) (v : α) (l : List (String × α)),
      keysSorted l → keysSorted (mapInsertUpper k v l)) :=
  ⟨by decide, fun _ k v l h => keysSorted_mapInsertUpper k v l h⟩

/-- Witness for C7: inserting into the sorted singleton collection keeps it
sorted. -/
theorem C7_serialization_key_order_witness :
    keysSorted (mapInsertUpper ":a" (0 : Nat) [(":b", 1)]) :=
  C7_serialization_key_order.2 Nat ":a" 0 [(":b", 1)]
    (by simp [keysSorted])

theorem length_mapInsertUpper {α : Type} (k : String) (v : α) :
    ∀ l : List (String × α), (mapInsertUpper k v l).length = l.length + 1 := by
  intro l
  induction l with
  | nil => rfl
  | cons e rest ih =>
    obtain ⟨k0, v0⟩ := e
    rw [mapInsertUpper]
    by_cases hk : keyLt k k0 = true
    · rw [if_pos hk]
      simp
    · rw [if_neg hk]
      simp [ih]

/-- C9: a const lookup of a missing key returns the shared null sentinel,
whose Exists() is false, and does not touch the element; the non-const
lookup of the same missing key inserts a fresh empty child or attribute and
returns it, so the collection grows by one entry — a non-const lookup of a
missing name mutates the document. -/
theorem C9_missing_lookup (e : XmlElementM) (ns name : String) :
    (mapFind (xmlKey ns name) e.elements = none →
      e.elementC ns name = nullElement ∧
      (e.elementC ns name).existsE = false ∧
      (e.elementM ns name).2 = .mk ns name "" [] [] ∧
      (e.elementM ns name).1.elements.length = e.elements.length + 1 ∧
      (e.elementM ns name).1.elements ≠ e.elements) ∧
    (mapFind (xmlKey ns name) e.attributes = none →
      e.attributeC ns name = nullAttribute ∧
      (e.attributeC ns name).existsA = false ∧
      (e.attributeM ns name).2 = ⟨ns, name, ""⟩ ∧
      (e.attributeM ns name).1.attributes.length = e.attributes.length + 1 ∧
      (e.attributeM ns name).1.attributes ≠ e.attributes) := by
  constructor
  · intro h
    have hC : e.elementC ns name = nullElement := by
      rw [XmlElementM.elementC, h]
    have hM : e.elementM ns name = e.add ns name := by
      rw [XmlElementM.elementM, h]
    refine ⟨hC, by rw [hC]; rfl, by rw [hM]; rfl, ?_, ?_⟩
    · rw [hM, XmlElementM.add]
      cases e with
      | mk ns0 name0 v0 attrs els =>
        simpa [XmlElementM.elements] using length_mapInsertUpper _ _ els
    · intro hcon
      have hlen := congrArg List.length hcon
      rw [hM, XmlElementM.add] at hlen
      cases e with
      | mk ns0 name0 v0 attrs els =>
        simp only [XmlElementM.elements, length_mapInsertUpper] at hlen
        omega
  · intro h
    have hC : e.attributeC ns name = nullAttribute := by
      rw [XmlElementM.attributeC, h]
    have hM : e.attributeM ns name =
        (.mk e.ns e.name e.value
          (mapInsertUpper (xmlKey ns name) ⟨ns, name, ""⟩ e.attributes)
          e.elements, ⟨ns, name, ""⟩) := by
      rw [XmlElementM.attributeM, h]
    refine ⟨hC, by rw [hC]; rfl, by rw [hM], ?_, ?_⟩
    · rw [hM]
      simpa [XmlElementM.attributes] using
        length_mapInsertUpper (xmlKey ns name) (⟨ns, name, ""⟩ : XmlAttributeM)
          e.attributes
    · intro hcon
      have hlen := congrArg List.length hcon
      rw [hM] at hlen
      simp only [XmlElementM.attributes, length_mapInsertUpper] at hlen
      omega

/-- Witness for C9 at the empty root element and the missing name x. -/
theorem C9_missing_lookup_witness :
    ((XmlElementM.mk "" "root" "" [] []).elementC "" "x" = nullElement ∧
      ((XmlElementM.mk "" "root" "" [] []).elementC "" "x").existsE = false ∧
      ((XmlElementM.mk "" "root" "" [] []).elementM "" "x").2 =
        .mk "" "x" "" [] [] ∧
      ((XmlElementM.mk "" "root" "" [] []).elementM "" "x").1.elements.length =
        (XmlElementM.mk "" "root" "" [] []).elements.length + 1 ∧
      ((XmlElementM.mk "" "root" "" [] []).elementM "" "x").1.elements ≠
        (XmlElementM.mk "" "root" "" [] []).elements) ∧
    ((XmlElementM.mk "" "root" "" [] []).attributeC "" "x" = nullAttribute ∧
      ((XmlElementM.mk "" "root" "" [] []).attributeC "" "x").existsA = false ∧
      ((XmlElementM.mk "" "root" "" [] []).attributeM "" "x").2 =
        ⟨"", "x", ""⟩ ∧
      ((XmlElementM.mk "" "root" "" [] []).attributeM "" "x").1.attributes.length =
        (XmlElementM.mk "" "root" "" [] []).attributes.length + 1 ∧
      ((XmlElementM.mk "" "root" "" [] []).attributeM "" "x").1.attributes ≠
        (XmlElementM.mk "" "root" "" [] []).attributes) :=
  ⟨(C9_missing_lookup (XmlElementM.mk "" "root" "" [] []) "" "x").1 rfl,
   (C9_missing_lookup (XmlElementM.mk "" "root" "" [] []) "" "x").2 rfl⟩

/-! ## TimeSpan round trips (C8) -/

theorem ratTrunc_intCast (n : ℤ) : ratTrunc (n : ℚ) = n := by
  rw [ratTrunc, Rat.num_intCast, Rat.den_intCast]
  simp [Int.tdiv_one]

theorem ratTrunc_cast_eq_iff (y : ℚ) :
    ((ratTrunc y : ℤ) : ℚ) = y ↔ ∃ n : ℤ, y = (n : ℚ) := by
  constructor
  · intro h
    exact ⟨ratTrunc y, h.symm⟩
  · rintro ⟨n, rfl⟩
    rw [ratTrunc_intCast]

theorem ratTrunc_roundtrip_iff (x c : ℚ) (hc : c ≠ 0) :
    ((ratTrunc (x * c) : ℤ) : ℚ) / c = x ↔ ∃ n : ℤ, x * c = (n : ℚ) := by
  rw [div_eq_iff hc]
  constructor
  · intro h
    exact ⟨ratTrunc (x * c), h.symm⟩
  · rintro ⟨n, hn⟩
    rw [hn, ratTrunc_intCast]

/-- C8: for every unit, FromUnit(x).TotalUnit() = x holds exactly when x is a
whole number of milliseconds — the int64_t truncation inside
FromMilliseconds is the only loss.  Doubles are modelled as exact rationals
(the representational-precision proviso of the claim) and the int64_t as an
unbounded integer. -/
theorem C8_timespan_roundtrip (x : ℚ) :
    ((TimeSpanM.fromMilliseconds x).totalMilliseconds = x ↔
      ∃ n : ℤ, x = (n : ℚ)) ∧
    ((TimeSpanM.fromSeconds x).totalSeconds = x ↔
      ∃ n : ℤ, x * 1000 = (n : ℚ)) ∧
    ((TimeSpanM.fromMinutes x).totalMinutes = x ↔
      ∃ n : ℤ, x * 60000 = (n : ℚ)) ∧
    ((TimeSpanM.fromHours x).totalHours = x ↔
      ∃ n : ℤ, x * 3600000 = (n : ℚ)) ∧
    ((TimeSpanM.fromDays x).totalDays = x ↔
      ∃ n : ℤ, x * 86400000 = (n : ℚ)) ∧
    ((TimeSpanM.fromWeeks x).totalWeeks = x ↔
      ∃ n : ℤ, x * 604800000 = (n : ℚ)) := by
  refine ⟨?_, ?_, ?_, ?_, ?_, ?_⟩
  · exact ratTrunc_cast_eq_iff x
  · show ((ratTrunc (x * 1000) : ℤ) : ℚ) / 1000 = x ↔ _
    exact ratTrunc_roundtrip_iff x 1000 (by norm_num)
  · show (((ratTrunc (x * 60 * 1000) : ℤ) : ℚ) / 1000) / 60 = x ↔ _
    rw [div_div]
    have h1 : ((1000 : ℚ) * 60) = 60000 := by norm_num
    have h2 : x * 60 * 1000 = x * 60000 := by ring
    rw [h1, h2]
    exact ratTrunc_roundtrip_iff x 60000 (by norm_num)
  · show ((((ratTrunc (x * 60 * 60 * 1000) : ℤ) : ℚ) / 1000) / 60) / 60 = x ↔ _
    rw [div_div, div_div]
    have h1 : ((1000 : ℚ) * (60 * 60)) = 3600000 := by norm_num
    have h2 : x * 60 * 60 * 1000 = x * 3600000 := by ring
    rw [h1, h2]
    exact ratTrunc_roundtrip_iff x 3600000 (by norm_num)
  · show (((((ratTrunc (x * 24 * 60 * 60 * 1000) : ℤ) : ℚ) / 1000) / 60) / 60) / 24
        = x ↔ _
    rw [div_div, div_div, div_div]
    have h1 : ((1000 : ℚ) * (60 * (60 * 24))) = 86400000 := by norm_num
    have h2 : x * 24 * 60 * 60 * 1000 = x * 86400000 := by ring
    rw [h1, h2]
    exact ratTrunc_roundtrip_iff x 86400000 (by norm_num)
  · show ((((((ratTrunc (x * 7 * 24 * 60 * 60 * 1000) : ℤ) : ℚ) / 1000) / 60) / 60)
        / 24) / 7 = x ↔ _
    rw [div_div, div_div, div_div, div_div]
    have h1 : ((1000 : ℚ) * (60 * (60 * (24 * 7)))) = 604800000 := by norm_num
    have h2 : x * 7 * 24 * 60 * 60 * 1000 = x * 604800000 := by ring
    rw [h1, h2]
    exact ratTrunc_roundtrip_iff x 604800000 (by norm_num)

end Nitrus
